import Mathlib

/-!
Verification development for the P2P delivery marketplace's
Order-Driver Assignment Engine (order lifecycle, driver matching and
pending-order queue, expiration sweep).

The Python services are embedded shallowly: the three entity stores
(orders, drivers, payments), the customer registry, the pending queue and
the notification log are gathered into one `SysState` record, and every
service method becomes a pure function from `SysState` to `SysState`,
paired with an optional raised exception.  `InMemoryRepository` is a
dict keyed by entity id; since every `save(id, e)` call in the services
uses `id = e.id`, the stores are embedded as lists of entities looked up
by their `id` field, with dict insertion-order semantics (update keeps
position, fresh key appends).  The unbounded `while` loop of
`on_driver_available` is embedded with explicit fuel, returning `none`
when the fuel runs out, so that termination is a provable statement.
-/

namespace Delivery

/-- Embeds `enums/order_status.py`: the order lifecycle states. -/
inductive OrderStatus where
  | PENDING
  | ASSIGNED
  | PICKED_UP
  | DELIVERED
  | CANCELLED
deriving DecidableEq, Repr

/-- Modelled from the spec: `enums/driver_status.py` is imported by the
sources but missing from the repository snapshot; the spec fixes the
driver states as AVAILABLE and BUSY. -/
inductive DriverStatus where
  | AVAILABLE
  | BUSY
deriving DecidableEq, Repr

/-- Modelled from the spec: `enums/item_type.py` is missing from the
snapshot; item is "an enumerated category" and the driver program uses
FOOD, ELECTRONICS, CLOTHING, BOOKS, DOCUMENTS. -/
inductive ItemType where
  | FOOD
  | ELECTRONICS
  | CLOTHING
  | BOOKS
  | DOCUMENTS
deriving DecidableEq, Repr

/-- Modelled from the spec: `enums/payment_mode.py` is missing from the
snapshot; `process_order_payment` documents the modes as CASH/UPI/WALLET. -/
inductive PaymentMode where
  | CASH
  | UPI
  | WALLET
deriving DecidableEq, Repr

/-- Embeds the dataclass `models/order.py:Order`.  `weight` is a Python
float used only as plain data, embedded as `Rat`; `created_at` is a
`time.time()` stamp, embedded as `Int`. -/
structure Order where
  id : String
  customer_id : String
  item : ItemType
  quantity : Nat := 1
  weight : Rat := 0
  driver_id : Option String := none
  status : OrderStatus := .PENDING
  created_at : Int := 0
  payment_id : Option String := none
  is_paid : Bool := false
deriving DecidableEq, Repr

/-- Embeds `Order.can_be_cancelled`: policy is that once a driver picks up
an order it cannot be cancelled, so PENDING and ASSIGNED are cancellable. -/
def Order.can_be_cancelled (o : Order) : Bool :=
  o.status == .PENDING || o.status == .ASSIGNED

/-- Embeds the dataclass `models/driver.py:Driver` (the leading
underscores of the two internal rating-accumulator fields are dropped). -/
structure Driver where
  id : String
  name : String
  status : DriverStatus := .AVAILABLE
  rating : Rat := 0
  order_count : Nat := 0
  total_rating_score : Rat := 0
  total_rated_orders : Nat := 0
deriving DecidableEq, Repr

/-- Embeds the dataclass `models/payment.py:Payment` (the `status` field
is the constant string "SUCCESS"; `timestamp` is the creation time). -/
structure Payment where
  id : String
  order_id : String
  amount : Rat
  mode : PaymentMode
  pay_status : String := "SUCCESS"
  timestamp : Int := 0
deriving DecidableEq, Repr

/-- Embeds `exceptions/custom_exceptions.py`: the exceptions the core
services raise, carrying the same identifying data. -/
inductive Err where
  | orderNotFound (order_id : String)
  | duplicateOrder (order_id : String)
  | notCancellable (order_id : String) (status : OrderStatus)
  | invalidState (order_id : String) (current expected : OrderStatus) (operation : String)
  | customerNotFound (customer_id : String)
  | driverNotFound (driver_id : String)
  | notAssigned (driver_id order_id : String)
deriving DecidableEq, Repr

/-- A fire-and-forget notification event recorded by
`services/notification_service.py` (`notify`, `notify_email`,
`notify_sms`); the interpolated message text is kept, numeric
interpolations are elided since the collaborator is external. -/
inductive Notif where
  | notify (message : String)
  | email (recipient message : String)
  | sms (phone message : String)
deriving DecidableEq, Repr

/-- The whole mutable state of the wired system of `main.py` /
`test_integration.py`: the four `InMemoryRepository` instances (orders,
drivers, payments, customers — customers reduced to their ids, the only
part the core reads), the `AssignmentService.pending_orders` queue, the
notification log, and the ambient clock read by `time.time()`. -/
structure SysState where
  orders : List Order
  drivers : List Driver
  pending : List String
  payments : List Payment
  customers : List String
  notifications : List Notif
  now : Int
deriving DecidableEq, Repr

/-- Embeds `InMemoryRepository.get`: dict lookup, i.e. the first stored
entity whose key matches.  Every `save(id, e)` call in the services uses
the entity's own `id` field as the key, so the key is a function of the
entity. -/
def repoGet (key : α → String) (l : List α) (k : String) : Option α :=
  l.find? (fun x => key x == k)

/-- Embeds `InMemoryRepository.save`: dict assignment — an existing key
keeps its insertion position, a fresh key appends at the end. -/
def repoSave (key : α → String) : List α → α → List α
  | [], x => [x]
  | y :: ys, x => if key y == key x then x :: ys else y :: repoSave key ys x

/-- The order store's `get`, keyed by `Order.id`. -/
def getOrder (orders : List Order) (order_id : String) : Option Order :=
  repoGet (fun o => o.id) orders order_id

/-- The order store's `save`, keyed by `Order.id`. -/
def saveOrder (orders : List Order) (o : Order) : List Order :=
  repoSave (fun o => o.id) orders o

/-- The driver store's `get`, keyed by `Driver.id`. -/
def getDriver (drivers : List Driver) (driver_id : String) : Option Driver :=
  repoGet (fun d => d.id) drivers driver_id

/-- The driver store's `save`, keyed by `Driver.id`. -/
def saveDriver (drivers : List Driver) (d : Driver) : List Driver :=
  repoSave (fun d => d.id) drivers d

/-- Embeds `DriverService.update_status`: fetch the driver, raise
`DriverNotFoundException` when absent, else set the status and save. -/
def update_status (s : SysState) (driver_id : String) (status : DriverStatus) :
    SysState × Option Err :=
  match getDriver s.drivers driver_id with
  | none => (s, some (.driverNotFound driver_id))
  | some d => ({ s with drivers := saveDriver s.drivers ({ d with status := status }) }, none)

/-- Embeds `FirstAvailableMatchingStrategy.find_driver`: the first driver
in insertion order whose status is AVAILABLE, if any. -/
def find_driver (drivers : List Driver) : Option Driver :=
  drivers.find? (fun d => d.status == .AVAILABLE)

/-- Embeds `AssignmentService.attempt_assignment` (with the default
`FirstAvailableMatchingStrategy`).  Re-reads the order; a missing or
non-PENDING order is a no-op returning false.  Otherwise the strategy
scans the driver store; on a match the driver is flipped to BUSY (the
direct `driver.status = BUSY` write and the `update_status(driver.id,
BUSY)` call act on the same stored object, and the lookup inside
`update_status` cannot fail because the matched driver comes from the
store itself), the order gets `driver_id` and status ASSIGNED and is
saved, returning true.  With no match the order id is appended to the
pending queue unless already present, returning false. -/
def attempt_assignment (s : SysState) (order_id : String) : Bool × SysState :=
  match getOrder s.orders order_id with
  | none => (false, s)
  | some o =>
    if o.status != .PENDING then (false, s)
    else
      match find_driver s.drivers with
      | some d =>
        let s1 := { s with drivers := saveDriver s.drivers ({ d with status := .BUSY }) }
        (true, { s1 with orders := (saveOrder s1.orders
                  ({ o with driver_id := some d.id, status := .ASSIGNED })) })
      | none =>
        if order_id ∈ s.pending then (false, s)
        else (false, { s with pending := s.pending ++ [order_id] })

/-- Embeds `AssignmentService.on_driver_available`: pop the queue head and
call `attempt_assignment` on it, returning as soon as one attempt
succeeds, until the queue empties.  The Python `while` loop is unbounded,
so the embedding takes explicit fuel and yields `none` when it runs out;
the `driver_id` argument is unused by the source body as well. -/
def on_driver_available (driver_id : String) : Nat → SysState → Option SysState
  | 0, _ => none
  | fuel + 1, s =>
    match s.pending with
    | [] => some s
    | order_id :: rest =>
      match attempt_assignment { s with pending := rest } order_id with
      | (true, s2) => some s2
      | (false, s2) => on_driver_available driver_id fuel s2

/-- Embeds `OrderService.create_order`: duplicate-id check, item-type
check (enforced here by typing), customer-existence check, then the order
is created PENDING with the dataclass defaults (`quantity = 1`,
`weight = 0.0`, `created_at = time.time()`), saved, the customer is
notified, and an immediate assignment is attempted. -/
def create_order (s : SysState) (order_id customer_id : String) (item : ItemType) :
    SysState × Option Err :=
  match getOrder s.orders order_id with
  | some _ => (s, some (.duplicateOrder order_id))
  | none =>
    if customer_id ∉ s.customers then (s, some (.customerNotFound customer_id))
    else
      let o : Order := { id := order_id, customer_id := customer_id,
                         item := item, created_at := s.now }
      let s1 := { s with orders := saveOrder s.orders o }
      let s2 := { s1 with notifications := (s1.notifications ++
                   [.email (customer_id ++ "@email.com")
                     ("Order " ++ order_id ++ " placed successfully.")]) }
      ((attempt_assignment s2 order_id).2, none)

/-- Embeds `OrderService.pickup_order`: requires the order to exist, to be
ASSIGNED, and to be assigned to the calling driver; then marks it
PICKED_UP, saves it, and notifies the driver and the customer. -/
def pickup_order (s : SysState) (driver_id order_id : String) : SysState × Option Err :=
  match getOrder s.orders order_id with
  | none => (s, some (.orderNotFound order_id))
  | some o =>
    if o.status != .ASSIGNED then
      (s, some (.invalidState order_id o.status .ASSIGNED "picked up"))
    else if o.driver_id != some driver_id then
      (s, some (.notAssigned driver_id order_id))
    else
      let s1 := { s with orders := saveOrder s.orders ({ o with status := .PICKED_UP }) }
      ({ s1 with notifications := (s1.notifications ++
          [.sms ("+91-DRIVER-" ++ driver_id)
            ("Order " ++ order_id ++ " picked up. Deliver to customer."),
           .email (o.customer_id ++ "@email.com")
            ("Order " ++ order_id ++ " is on the way!")]) }, none)

/-- Embeds `OrderService.complete_order`: requires the order to exist, to
be PICKED_UP, and to be assigned to the calling driver; marks it
DELIVERED and saves it, then (the saved order's `driver_id` is non-null
here) frees the driver, increments the driver's completed-order count,
emits the delivery notification, and drains the pending queue through
`on_driver_available` (hence the fuel). -/
def complete_order (fuel : Nat) (s : SysState) (driver_id order_id : String) :
    Option (SysState × Option Err) :=
  match getOrder s.orders order_id with
  | none => some (s, some (.orderNotFound order_id))
  | some o =>
    if o.status != .PICKED_UP then
      some (s, some (.invalidState order_id o.status .PICKED_UP "completed"))
    else if o.driver_id != some driver_id then
      some (s, some (.notAssigned driver_id order_id))
    else
      let s1 := { s with orders := saveOrder s.orders ({ o with status := .DELIVERED }) }
      match o.driver_id with
      | none => some (s1, none)
      | some prev =>
        match update_status s1 prev .AVAILABLE with
        | (s2, some e) => some (s2, some e)
        | (s2, none) =>
          let s3 := match getDriver s2.drivers prev with
            | some d => { s2 with drivers :=
                (saveDriver s2.drivers ({ d with order_count := d.order_count + 1 })) }
            | none => s2
          let s4 := { s3 with notifications := (s3.notifications ++
              [.notify ("Order " ++ order_id ++ " delivered successfully by Driver "
                ++ prev)]) }
          match on_driver_available prev fuel s4 with
          | none => none
          | some s5 => some (s5, none)

/-- Embeds `OrderService.cancel_order`: requires the order to exist and
`can_be_cancelled`; sets it CANCELLED, clears `driver_id`, saves, and
notifies.  If a driver was held it is freed (`update_status` may raise
`DriverNotFoundException`), a notification is emitted, and the pending
queue is drained through `on_driver_available` (hence the fuel). -/
def cancel_order (fuel : Nat) (s : SysState) (order_id : String) :
    Option (SysState × Option Err) :=
  match getOrder s.orders order_id with
  | none => some (s, some (.orderNotFound order_id))
  | some o =>
    if o.can_be_cancelled = false then
      some (s, some (.notCancellable order_id o.status))
    else
      let s1 := { s with orders := (saveOrder s.orders
                   ({ o with status := .CANCELLED, driver_id := none })) }
      let s2 := { s1 with notifications := (s1.notifications ++
                   [.notify ("Order " ++ order_id ++ " has been cancelled.")]) }
      match o.driver_id with
      | none => some (s2, none)
      | some prev =>
        match update_status s2 prev .AVAILABLE with
        | (s3, some e) => some (s3, some e)
        | (s3, none) =>
          let s4 := { s3 with notifications := (s3.notifications ++
                       [.notify ("Driver " ++ prev ++
                         " is now available due to order cancellation.")]) }
          match on_driver_available prev fuel s4 with
          | none => none
          | some s5 => some (s5, none)

/-- Embeds `PaymentService.process_payment`: records a fresh Payment (the
`uuid4` payment id is embedded as a counter-derived fresh identifier) and
returns it; capture always succeeds. -/
def process_payment (s : SysState) (order_id : String) (amount : Rat)
    (mode : PaymentMode) : Payment × SysState :=
  let p : Payment := { id := "PAY-" ++ toString s.payments.length, order_id := order_id,
                       amount := amount, mode := mode, timestamp := s.now }
  (p, { s with payments := s.payments ++ [p] })

/-- Embeds `OrderService.process_order_payment`: requires the order to
exist; an already-paid order is reported as a no-op notification and
returns without error; otherwise the payment collaborator captures the
amount, and the order's `payment_id` and `is_paid` are set and saved.
The source performs no check of the order's status. -/
def process_order_payment (s : SysState) (order_id : String) (amount : Rat)
    (mode : PaymentMode) : SysState × Option Err :=
  match getOrder s.orders order_id with
  | none => (s, some (.orderNotFound order_id))
  | some o =>
    if o.is_paid then
      ({ s with notifications := (s.notifications ++
          [.notify ("Order " ++ order_id ++ " is already paid.")]) }, none)
    else
      let ps := process_payment s order_id amount mode
      let s2 := { ps.2 with orders := (saveOrder ps.2.orders
                   ({ o with payment_id := some ps.1.id, is_paid := true })) }
      ({ s2 with notifications := (s2.notifications ++
          [.notify ("Payment collected for Order " ++ order_id)]) }, none)

/-- Embeds the loop body sequence of `OrderService.cleanup_expired_orders`
over the snapshot of order ids: each PENDING/ASSIGNED order older than
the timeout is cancelled through `cancel_order`; a
`OrderNotCancellableException` from the cancel is swallowed and the sweep
continues, any other exception propagates and aborts the sweep.  Orders
are never removed from the store, so looking the id up again matches the
source's aliased-object status check. -/
def cleanup_pass (fuel : Nat) (timeout : Int) :
    List String → SysState → Option (SysState × Option Err)
  | [], s => some (s, none)
  | order_id :: rest, s =>
    match getOrder s.orders order_id with
    | none => cleanup_pass fuel timeout rest s
    | some o =>
      if (o.status == .PENDING || o.status == .ASSIGNED)
          && decide (s.now - o.created_at > timeout) then
        match cancel_order fuel s order_id with
        | none => none
        | some (s1, some (.notCancellable _ _)) => cleanup_pass fuel timeout rest s1
        | some (s1, some e) => some (s1, some e)
        | some (s1, none) => cleanup_pass fuel timeout rest s1
      else cleanup_pass fuel timeout rest s

/-- Embeds `OrderService.cleanup_expired_orders`: sweep the snapshot
`repo.all()` of the order store (insertion order) with `cleanup_pass`. -/
def cleanup_expired_orders (fuel : Nat) (s : SysState) (timeout : Int) :
    Option (SysState × Option Err) :=
  cleanup_pass fuel timeout (s.orders.map (fun o => o.id)) s

/-- An order id whose current order exists and is PENDING (the condition
the queue drain checks through `attempt_assignment`). -/
def is_pending_order (s : SysState) (order_id : String) : Bool :=
  match getOrder s.orders order_id with
  | some o => o.status == .PENDING
  | none => false

/-! ### Invariants -/

/-- An order counting against a driver: it references the driver and is in
a non-terminal referencing state (ASSIGNED or PICKED_UP). -/
def nonTerminalFor (driver_id : String) (o : Order) : Bool :=
  o.driver_id == some driver_id && (o.status == .ASSIGNED || o.status == .PICKED_UP)

/-- How many stored orders currently hold the given driver. -/
def nonTerminalCount (orders : List Order) (driver_id : String) : Nat :=
  orders.countP (nonTerminalFor driver_id)

/-- Spec invariant: `driverId` is non-null iff
status ∈ {ASSIGNED, PICKED_UP, DELIVERED}. -/
def OrdersLinkInv (orders : List Order) : Prop :=
  ∀ o ∈ orders, o.driver_id ≠ none ↔
    (o.status = .ASSIGNED ∨ o.status = .PICKED_UP ∨ o.status = .DELIVERED)

/-- Strengthened driver invariant: a BUSY driver is held by exactly one
non-terminal order and an AVAILABLE driver by none (this strengthening of
the spec's iff is what is actually inductive). -/
def DriversLinkInv (orders : List Order) (drivers : List Driver) : Prop :=
  ∀ d ∈ drivers, nonTerminalCount orders d.id = (if d.status = .BUSY then 1 else 0)

/-- The stores are Python dicts keyed by entity id, so ids are unique. -/
def StoreWF (orders : List Order) (drivers : List Driver) : Prop :=
  (orders.map (fun o => o.id)).Nodup ∧ (drivers.map (fun d => d.id)).Nodup

/-- Queue invariant that the code actually maintains: no duplicates, every
queued id denotes a stored order, and every PENDING order is queued.  (The
converse — queued implies PENDING — does not hold: stale ids of orders
cancelled while queued stay until a drain drops them.) -/
def QueueWF (orders : List Order) (pending : List String) : Prop :=
  pending.Nodup ∧ (∀ q ∈ pending, (getOrder orders q).isSome) ∧
    (∀ o ∈ orders, o.status = .PENDING → o.id ∈ pending)

/-- Variant of `QueueWF` holding while one order id is being worked on by
the assignment engine (popped from the queue or freshly created and not
yet queued): that one PENDING order may be missing from the queue. -/
def QueueWFx (orders : List Order) (pending : List String) (order_id : String) : Prop :=
  pending.Nodup ∧ (∀ q ∈ pending, (getOrder orders q).isSome) ∧
    (∀ o ∈ orders, o.status = .PENDING → o.id ∈ pending ∨ o.id = order_id)

/-- The reachable-state invariant preserved by every core operation. -/
def Inv (s : SysState) : Prop :=
  StoreWF s.orders s.drivers ∧ OrdersLinkInv s.orders ∧
    DriversLinkInv s.orders s.drivers ∧ QueueWF s.orders s.pending

instance (orders : List Order) : Decidable (OrdersLinkInv orders) := by
  unfold OrdersLinkInv; infer_instance

instance (orders : List Order) (drivers : List Driver) :
    Decidable (DriversLinkInv orders drivers) := by
  unfold DriversLinkInv; infer_instance

instance (orders : List Order) (drivers : List Driver) :
    Decidable (StoreWF orders drivers) := by
  unfold StoreWF; infer_instance

instance (orders : List Order) (pending : List String) :
    Decidable (QueueWF orders pending) := by
  unfold QueueWF; infer_instance

instance (s : SysState) : Decidable (Inv s) := by
  unfold Inv; infer_instance


/-! ### Concrete states used by closed evaluations -/

/-- One registered customer C1 and nothing else. -/
def stateEmpty : SysState :=
  { orders := [], drivers := [], pending := [], payments := [], customers := ["C1"],
    notifications := [], now := 0 }

/-- A freshly created, still unassigned order. -/
def oP1 : Order := { id := "O1", customer_id := "C1", item := .FOOD }

/-- An available driver. -/
def dA1 : Driver := { id := "D1", name := "Bob" }

/-- O1 is PENDING and queued; no driver exists. -/
def stateQueued : SysState := { stateEmpty with orders := [oP1], pending := ["O1"] }

/-- O1 is PENDING and queued; D1 is AVAILABLE. -/
def stateAvail : SysState := { stateQueued with drivers := [dA1] }

/-- O1 is ASSIGNED to the BUSY driver D1; the queue is empty. -/
def stateAssigned : SysState :=
  { stateEmpty with
    orders := [{ oP1 with status := .ASSIGNED, driver_id := some "D1" }],
    drivers := [{ dA1 with status := .BUSY }] }

/-- O1 is DELIVERED by D1 and not yet paid; D1 is AVAILABLE again. -/
def stateDelivered : SysState :=
  { stateEmpty with
    orders := [{ oP1 with status := .DELIVERED, driver_id := some "D1" }],
    drivers := [dA1] }

/-! ### Repository lemmas -/

theorem repoGet_eq_none {key : α → String} {l : List α} {k : String} :
    repoGet key l k = none ↔ ∀ x ∈ l, key x ≠ k := by
  simp [repoGet, List.find?_eq_none]

theorem repoGet_key {key : α → String} {l : List α} {k : String} {x : α}
    (h : repoGet key l k = some x) : key x = k := by
  simpa using List.find?_some h

theorem repoGet_mem {key : α → String} {l : List α} {k : String} {x : α}
    (h : repoGet key l k = some x) : x ∈ l :=
  List.mem_of_find?_eq_some h

theorem repoGet_cons_pos {key : α → String} {a : α} {as : List α} {k : String}
    (h : key a = k) : repoGet key (a :: as) k = some a := by
  simp [repoGet, List.find?_cons_of_pos, h]

theorem repoGet_cons_neg {key : α → String} {a : α} {as : List α} {k : String}
    (h : key a ≠ k) : repoGet key (a :: as) k = repoGet key as k := by
  simp only [repoGet]
  rw [List.find?_cons_of_neg _ (by simpa using h)]

theorem repoSave_cons_pos {key : α → String} {a x1 : α} {as : List α}
    (h : key a = key x1) : repoSave key (a :: as) x1 = x1 :: as := by
  simp [repoSave, h]

theorem repoSave_cons_neg {key : α → String} {a x1 : α} {as : List α}
    (h : key a ≠ key x1) : repoSave key (a :: as) x1 = a :: repoSave key as x1 := by
  simp only [repoSave]
  rw [if_neg (by simpa using h)]

theorem repoGet_decomp {key : α → String} {l : List α} {k : String} {x : α}
    (h : repoGet key l k = some x) :
    ∃ l1 l2, l = l1 ++ x :: l2 ∧ (∀ y ∈ l1, key y ≠ k) ∧ key x = k ∧
      ∀ x1, key x1 = k → repoSave key l x1 = l1 ++ x1 :: l2 := by
  induction l with
  | nil => simp [repoGet] at h
  | cons a as ih =>
    by_cases ha : key a = k
    · have hx : a = x := by
        rw [repoGet_cons_pos ha] at h
        exact Option.some.inj h
      subst hx
      refine ⟨[], as, rfl, by simp, ha, ?_⟩
      intro x1 h1
      exact repoSave_cons_pos (by rw [ha, h1])
    · rw [repoGet_cons_neg ha] at h
      obtain ⟨l1, l2, hdec, hl1, hkx, hsave⟩ := ih h
      refine ⟨a :: l1, l2, by simp [hdec], ?_, hkx, ?_⟩
      · intro y hy
        rcases List.mem_cons.mp hy with rfl | hy
        · exact ha
        · exact hl1 y hy
      · intro x1 h1
        rw [repoSave_cons_neg (by rw [h1]; exact ha), hsave x1 h1]
        simp

theorem repoSave_of_none {key : α → String} {l : List α} {x1 : α}
    (h : repoGet key l (key x1) = none) :
    repoSave key l x1 = l ++ [x1] := by
  rw [repoGet_eq_none] at h
  induction l with
  | nil => rfl
  | cons a as ih =>
    rw [repoSave_cons_neg (h a (List.mem_cons_self _ _)),
      ih (fun x hx => h x (List.mem_cons_of_mem _ hx))]
    rfl

theorem repoGet_save_self (key : α → String) (l : List α) (x1 : α) :
    repoGet key (repoSave key l x1) (key x1) = some x1 := by
  induction l with
  | nil => simp [repoSave, repoGet]
  | cons a as ih =>
    by_cases ha : key a = key x1
    · rw [repoSave_cons_pos ha, repoGet_cons_pos rfl]
    · rw [repoSave_cons_neg ha, repoGet_cons_neg ha]
      exact ih

theorem repoGet_save_ne {key : α → String} {l : List α} {x1 : α} {k : String}
    (h : key x1 ≠ k) :
    repoGet key (repoSave key l x1) k = repoGet key l k := by
  induction l with
  | nil => simp [repoSave, repoGet, h]
  | cons a as ih =>
    by_cases ha : key a = key x1
    · rw [repoSave_cons_pos ha, repoGet_cons_neg h, repoGet_cons_neg (ha ▸ h)]
    · by_cases hak : key a = k
      · rw [repoSave_cons_neg ha, repoGet_cons_pos hak, repoGet_cons_pos hak]
      · rw [repoSave_cons_neg ha, repoGet_cons_neg hak, repoGet_cons_neg hak]
        exact ih

theorem mem_repoSave {key : α → String} {l : List α} {x1 y : α}
    (h : y ∈ repoSave key l x1) : y = x1 ∨ y ∈ l := by
  induction l with
  | nil => simpa [repoSave] using h
  | cons a as ih =>
    by_cases ha : key a = key x1
    · rw [repoSave_cons_pos ha] at h
      rcases List.mem_cons.mp h with rfl | h
      · exact Or.inl rfl
      · exact Or.inr (List.mem_cons_of_mem _ h)
    · rw [repoSave_cons_neg ha] at h
      rcases List.mem_cons.mp h with rfl | h
      · exact Or.inr (List.mem_cons_self _ _)
      · rcases ih h with h | h
        · exact Or.inl h
        · exact Or.inr (List.mem_cons_of_mem _ h)

theorem map_key_repoSave_of_some {key : α → String} {l : List α} {k : String} {x : α}
    (x1 : α) (h : repoGet key l k = some x) (h1 : key x1 = k) :
    (repoSave key l x1).map key = l.map key := by
  obtain ⟨l1, l2, hdec, -, hkx, hsave⟩ := repoGet_decomp h
  rw [hsave x1 h1, hdec]
  simp [hkx, h1]

theorem nodup_key_repoSave {key : α → String} {l : List α} (x1 : α)
    (h : (l.map key).Nodup) : ((repoSave key l x1).map key).Nodup := by
  cases hg : repoGet key l (key x1) with
  | none =>
    rw [repoSave_of_none hg]
    rw [repoGet_eq_none] at hg
    simp only [List.map_append, List.map_cons, List.map_nil]
    rw [List.nodup_append]
    refine ⟨h, List.nodup_singleton _, ?_⟩
    intro a ha
    simp only [List.mem_singleton]
    intro hb
    obtain ⟨y, hy, hya⟩ := List.mem_map.mp ha
    exact hg y hy (hya.trans hb)
  | some x => rw [map_key_repoSave_of_some _ hg rfl]; exact h

theorem isSome_repoGet_save {key : α → String} {l : List α} {x1 : α} {k : String}
    (h : (repoGet key l k).isSome) : (repoGet key (repoSave key l x1) k).isSome := by
  by_cases hk : key x1 = k
  · subst hk; rw [repoGet_save_self]; rfl
  · rw [repoGet_save_ne hk]; exact h

theorem repoGet_mem_nodup {key : α → String} {l : List α} {x : α}
    (hN : (l.map key).Nodup) (hx : x ∈ l) : repoGet key l (key x) = some x := by
  induction l with
  | nil => cases hx
  | cons a as ih =>
    rcases List.mem_cons.mp hx with rfl | hx
    · exact repoGet_cons_pos rfl
    · have ha : key a ≠ key x := by
        intro hc
        have hmem : key x ∈ as.map key := List.mem_map.mpr ⟨x, hx, rfl⟩
        rw [← hc] at hmem
        exact (List.nodup_cons.mp (by simpa using hN)).1 hmem
      rw [repoGet_cons_neg ha]
      exact ih (List.nodup_cons.mp (by simpa using hN)).2 hx

theorem repoGet_decomp_nodup {key : α → String} {l : List α} {k : String} {x : α}
    (h : repoGet key l k = some x) (hN : (l.map key).Nodup) :
    ∃ l1 l2, l = l1 ++ x :: l2 ∧ (∀ y ∈ l1, key y ≠ k) ∧ (∀ y ∈ l2, key y ≠ k) ∧
      key x = k ∧ ∀ x1, key x1 = k → repoSave key l x1 = l1 ++ x1 :: l2 := by
  obtain ⟨l1, l2, hdec, hl1, hkx, hsave⟩ := repoGet_decomp h
  refine ⟨l1, l2, hdec, hl1, ?_, hkx, hsave⟩
  intro y hy hyk
  rw [hdec] at hN
  simp only [List.map_append, List.map_cons] at hN
  have h2 := (List.nodup_append.mp hN).2
  have hx : key x ∉ l2.map key := (List.nodup_cons.mp h2.1).1
  exact hx (by rw [hkx, ← hyk]; exact List.mem_map.mpr ⟨y, hy, rfl⟩)

theorem countP_repoSave {key : α → String} {l : List α} {k : String} {x x1 : α}
    (p : α → Bool) (h : repoGet key l k = some x) (h1 : key x1 = k) :
    (repoSave key l x1).countP p + (if p x then 1 else 0)
      = l.countP p + (if p x1 then 1 else 0) := by
  obtain ⟨l1, l2, hdec, -, -, hsave⟩ := repoGet_decomp h
  rw [hsave x1 h1, hdec]
  simp only [List.countP_append, List.countP_cons]
  omega

theorem countP_repoSave_none {key : α → String} {l : List α} {x1 : α}
    (p : α → Bool) (h : repoGet key l (key x1) = none) :
    (repoSave key l x1).countP p = l.countP p + (if p x1 then 1 else 0) := by
  rw [repoSave_of_none h]
  simp [List.countP_append, List.countP_cons]

/-! ### Matching-policy and assignment lemmas -/

theorem find_driver_some {drivers : List Driver} {d : Driver}
    (h : find_driver drivers = some d) : d ∈ drivers ∧ d.status = .AVAILABLE := by
  refine ⟨List.mem_of_find?_eq_some h, ?_⟩
  simpa using List.find?_some h

theorem find_driver_isSome {drivers : List Driver} {d : Driver}
    (hd : d ∈ drivers) (ha : d.status = .AVAILABLE) : (find_driver drivers).isSome :=
  List.find?_isSome.mpr ⟨d, hd, by simp [ha]⟩

/-- `attempt_assignment` on a missing order: no-op returning false. -/
theorem attempt_of_missing {s : SysState} {order_id : String}
    (h : getOrder s.orders order_id = none) :
    attempt_assignment s order_id = (false, s) := by
  simp [attempt_assignment, h]

/-- `attempt_assignment` on a non-PENDING order: no-op returning false. -/
theorem attempt_of_not_pending {s : SysState} {order_id : String} {o : Order}
    (h : getOrder s.orders order_id = some o) (hs : o.status ≠ .PENDING) :
    attempt_assignment s order_id = (false, s) := by
  simp only [attempt_assignment, h]
  rw [if_pos (by simpa using hs)]

/-- `attempt_assignment` on a PENDING order with an AVAILABLE driver:
driver flipped BUSY, order ASSIGNED to it, both persisted, returns true. -/
theorem attempt_of_driver {s : SysState} {order_id : String} {o : Order} {d : Driver}
    (h : getOrder s.orders order_id = some o) (hs : o.status = .PENDING)
    (hd : find_driver s.drivers = some d) :
    attempt_assignment s order_id =
      (true, { s with drivers := (saveDriver s.drivers ({ d with status := .BUSY })),
                      orders := (saveOrder s.orders
                        ({ o with driver_id := some d.id, status := .ASSIGNED })) }) := by
  simp only [attempt_assignment, h]
  rw [if_neg (by simp [hs]), hd]

/-- `attempt_assignment` on a PENDING order with no driver and the order
already queued: no-op returning false. -/
theorem attempt_of_no_driver_mem {s : SysState} {order_id : String} {o : Order}
    (h : getOrder s.orders order_id = some o) (hs : o.status = .PENDING)
    (hd : find_driver s.drivers = none) (hm : order_id ∈ s.pending) :
    attempt_assignment s order_id = (false, s) := by
  simp only [attempt_assignment, h]
  rw [if_neg (by simp [hs]), hd]
  simp [hm]

/-- `attempt_assignment` on a PENDING order with no driver and the order
not yet queued: the id is appended to the queue, returns false. -/
theorem attempt_of_no_driver_not_mem {s : SysState} {order_id : String} {o : Order}
    (h : getOrder s.orders order_id = some o) (hs : o.status = .PENDING)
    (hd : find_driver s.drivers = none) (hm : order_id ∉ s.pending) :
    attempt_assignment s order_id = (false, { s with pending := s.pending ++ [order_id] }) := by
  simp only [attempt_assignment, h]
  rw [if_neg (by simp [hs]), hd]
  simp [hm]


/-! ### C4: attempt_assignment functional correctness -/

/-- C4: `attempt_assignment(order_id)` returns false and changes no state
when the order is missing or not PENDING; when the order is PENDING and
the matching policy finds an AVAILABLE driver it flips that driver to
BUSY, sets the order's driver and status ASSIGNED, persists both and
returns true; when no driver is found it appends the id to the pending
queue only if not already present and returns false. -/
theorem claim_C4 (s : SysState) (order_id : String) :
    ((getOrder s.orders order_id = none ∨
        ∃ o, getOrder s.orders order_id = some o ∧ o.status ≠ .PENDING) →
      attempt_assignment s order_id = (false, s)) ∧
    (∀ o d, getOrder s.orders order_id = some o → o.status = .PENDING →
      find_driver s.drivers = some d →
      d.status = .AVAILABLE ∧
      attempt_assignment s order_id =
        (true, { s with drivers := (saveDriver s.drivers ({ d with status := .BUSY })),
                        orders := (saveOrder s.orders
                          ({ o with driver_id := some d.id, status := .ASSIGNED })) })) ∧
    (∀ o, getOrder s.orders order_id = some o → o.status = .PENDING →
      find_driver s.drivers = none →
      attempt_assignment s order_id =
        (false, { s with pending :=
          (if order_id ∈ s.pending then s.pending else s.pending ++ [order_id]) })) := by
  refine ⟨?_, ?_, ?_⟩
  · rintro (h | ⟨o, ho, hs⟩)
    · exact attempt_of_missing h
    · exact attempt_of_not_pending ho hs
  · intro o d ho hs hd
    exact ⟨(find_driver_some hd).2, attempt_of_driver ho hs hd⟩
  · intro o ho hs hd
    by_cases hm : order_id ∈ s.pending
    · rw [attempt_of_no_driver_mem ho hs hd hm, if_pos hm]
    · rw [attempt_of_no_driver_not_mem ho hs hd hm, if_neg hm]

/-- Witness for C4: in the concrete state with PENDING queued O1 and
AVAILABLE driver D1, the assignment branch fires as stated. -/
theorem claim_C4_witness :
    (getOrder stateAvail.orders "O1" = some oP1 ∧ oP1.status = .PENDING ∧
      find_driver stateAvail.drivers = some dA1) ∧
    (dA1.status = .AVAILABLE ∧
      attempt_assignment stateAvail "O1" =
        (true, { stateAvail with
                  drivers := (saveDriver stateAvail.drivers ({ dA1 with status := .BUSY })),
                  orders := (saveOrder stateAvail.orders
                    ({ oP1 with driver_id := some dA1.id, status := .ASSIGNED })) })) :=
  ⟨⟨by decide, by decide, by decide⟩,
    (claim_C4 stateAvail "O1").2.1 oP1 dA1 (by decide) (by decide) (by decide)⟩

/-! ### C6: the pay guard the source actually implements -/

/-- C6 (code behavior at the failing input): in `stateQueued` the order O1
exists, is PENDING and unpaid, yet `process_order_payment` raises no
invalid-state error: it succeeds, captures a payment record and marks the
order paid.  The source checks only `is_paid`, never the DELIVERED
status. -/
theorem claim_C6_code_behavior :
    getOrder stateQueued.orders "O1" = some oP1 ∧ oP1.status = .PENDING ∧
    oP1.is_paid = false ∧
    (process_order_payment stateQueued "O1" 100 .CASH).2 = none ∧
    (process_order_payment stateQueued "O1" 100 .CASH).1.payments.length = 1 ∧
    getOrder (process_order_payment stateQueued "O1" 100 .CASH).1.orders "O1" =
      some ({ oP1 with payment_id := some "PAY-0", is_paid := true }) := by
  decide

/-! ### C10: create_order carries no quantity/weight and validates neither -/

/-- C10 (code behavior): `create_order` takes only an id, a customer id
and an item — a creation request cannot carry a quantity or weight, no
bounds check exists, and the stored order always gets the dataclass
defaults quantity 1 and weight 0.  Concretely, creation in `stateEmpty`
succeeds with exactly those defaults. -/
theorem claim_C10_code_behavior :
    (create_order stateEmpty "O1" "C1" .FOOD).2 = none ∧
    getOrder (create_order stateEmpty "O1" "C1" .FOOD).1.orders "O1" =
      some { id := "O1", customer_id := "C1", item := .FOOD, quantity := 1, weight := 0,
             driver_id := none, status := .PENDING, created_at := 0, payment_id := none,
             is_paid := false } := by
  decide

/-! ### C7: queue drain termination -/

/-- In `stateQueued` (a PENDING order queued, no driver in the store) the
drain body pops O1 and immediately re-queues it, restoring the exact same
state. -/
theorem attempt_stuck :
    attempt_assignment { stateQueued with pending := [] } "O1" = (false, stateQueued) := by
  decide

/-- The drain loop never terminates from `stateQueued`, whatever the fuel. -/
theorem drain_stuck (driver_id : String) :
    ∀ fuel, on_driver_available driver_id fuel stateQueued = none := by
  intro fuel
  induction fuel with
  | zero => rfl
  | succ n ih =>
    rw [show on_driver_available driver_id (n + 1) stateQueued =
        (match attempt_assignment { stateQueued with pending := [] } "O1" with
         | (true, s2) => some s2
         | (false, s2) => on_driver_available driver_id n s2) from rfl, attempt_stuck]
    exact ih

/-- C7 counterexample: the claim "for every state of the pending queue and
the order and driver stores, on_driver_available terminates" fails: from
`stateQueued` (queue ["O1"], O1 still PENDING, no driver) no amount of
fuel makes the drain return — the loop pops the head and requeues it
forever. -/
theorem claim_C7_counterexample :
    ¬ ∃ fuel, (on_driver_available "D0" fuel stateQueued).isSome := by
  rintro ⟨fuel, h⟩
  rw [drain_stuck "D0" fuel] at h
  exact Bool.false_ne_true h

/-- If every queued id denotes a dropped (no longer PENDING or missing)
order, the drain terminates within queue-length steps by dropping them
all, touching nothing else. -/
theorem drain_all_stale :
    ∀ (p : List String) (s : SysState) (driver_id : String), s.pending = p →
      (∀ q ∈ p, is_pending_order s q = false) →
      on_driver_available driver_id (p.length + 1) s = some { s with pending := [] } := by
  intro p
  induction p with
  | nil =>
    intro s driver_id hp hall
    obtain ⟨ords, drvs, pnd, pays, custs, nots, nw⟩ := s
    simp only at hp
    subst hp
    rfl
  | cons q qs ih =>
    intro s driver_id hp hall
    obtain ⟨ords, drvs, pnd, pays, custs, nots, nw⟩ := s
    simp only at hp
    subst hp
    have hq : is_pending_order ⟨ords, drvs, q :: qs, pays, custs, nots, nw⟩ q = false :=
      hall q (List.mem_cons_self _ _)
    have hstep : attempt_assignment ⟨ords, drvs, qs, pays, custs, nots, nw⟩ q =
        (false, ⟨ords, drvs, qs, pays, custs, nots, nw⟩) := by
      unfold is_pending_order at hq
      cases ho : getOrder ords q with
      | none => exact attempt_of_missing ho
      | some o =>
        rw [show getOrder (SysState.mk ords drvs (q :: qs) pays custs nots nw).orders q
          = getOrder ords q from rfl, ho] at hq
        exact attempt_of_not_pending ho (by simpa using hq)
    have hunf : on_driver_available driver_id (qs.length + 1 + 1)
          ⟨ords, drvs, q :: qs, pays, custs, nots, nw⟩
        = (match attempt_assignment ⟨ords, drvs, qs, pays, custs, nots, nw⟩ q with
           | (true, s2) => some s2
           | (false, s2) => on_driver_available driver_id (qs.length + 1) s2) := rfl
    rw [show ((q :: qs).length + 1) = qs.length + 1 + 1 from rfl, hunf, hstep]
    exact ih ⟨ords, drvs, qs, pays, custs, nots, nw⟩ driver_id rfl
      (fun q' hq' => hall q' (List.mem_cons_of_mem _ hq'))

/-- If some driver is AVAILABLE, the drain terminates within queue-length
steps: stale heads are dropped and the first still-PENDING head is
assigned. -/
theorem drain_terminates_of_avail :
    ∀ (p : List String) (s : SysState) (driver_id : String), s.pending = p →
      (∃ d ∈ s.drivers, d.status = .AVAILABLE) →
      (on_driver_available driver_id (p.length + 1) s).isSome := by
  intro p
  induction p with
  | nil =>
    intro s driver_id hp _
    obtain ⟨ords, drvs, pnd, pays, custs, nots, nw⟩ := s
    simp only at hp
    subst hp
    rfl
  | cons q qs ih =>
    intro s driver_id hp hav
    obtain ⟨ords, drvs, pnd, pays, custs, nots, nw⟩ := s
    simp only at hp
    subst hp
    have hunf : on_driver_available driver_id (qs.length + 1 + 1)
          ⟨ords, drvs, q :: qs, pays, custs, nots, nw⟩
        = (match attempt_assignment ⟨ords, drvs, qs, pays, custs, nots, nw⟩ q with
           | (true, s2) => some s2
           | (false, s2) => on_driver_available driver_id (qs.length + 1) s2) := rfl
    rw [show ((q :: qs).length + 1) = qs.length + 1 + 1 from rfl, hunf]
    cases ho : getOrder ords q with
    | none =>
      rw [attempt_of_missing (show getOrder (SysState.mk ords drvs qs pays custs nots nw).orders q
        = none from ho)]
      exact ih _ driver_id rfl hav
    | some o =>
      by_cases hs : o.status = .PENDING
      · obtain ⟨d, hd, hda⟩ := hav
        have hfd : (find_driver drvs).isSome := find_driver_isSome hd hda
        obtain ⟨d0, hd0⟩ := Option.isSome_iff_exists.mp hfd
        rw [attempt_of_driver (show getOrder (SysState.mk ords drvs qs pays custs nots nw).orders q
          = some o from ho) hs (show find_driver (SysState.mk ords drvs qs pays custs nots nw).drivers
          = some d0 from hd0)]
        rfl
      · rw [attempt_of_not_pending (show getOrder (SysState.mk ords drvs qs pays custs nots nw).orders q
          = some o from ho) hs]
        exact ih _ driver_id rfl hav

/-- C7 (amended): the queue drain terminates — with fuel one more than the
queue length — whenever some driver is AVAILABLE or every queued entry is
stale (its order missing or no longer PENDING); stale entries are merely
dropped and never block the drain (when all entries are stale the result
is exactly the same state with an emptied queue).  Without that proviso
the drain can spin forever (see the counterexample). -/
theorem claim_C7 (s : SysState) (driver_id : String)
    (h : (∃ d ∈ s.drivers, d.status = .AVAILABLE) ∨
      ∀ q ∈ s.pending, is_pending_order s q = false) :
    (on_driver_available driver_id (s.pending.length + 1) s).isSome ∧
    ((∀ q ∈ s.pending, is_pending_order s q = false) →
      on_driver_available driver_id (s.pending.length + 1) s = some { s with pending := [] }) := by
  constructor
  · rcases h with h | h
    · exact drain_terminates_of_avail s.pending s driver_id rfl h
    · rw [drain_all_stale s.pending s driver_id rfl h]
      rfl
  · intro h
    exact drain_all_stale s.pending s driver_id rfl h

/-- Witness for C7: in `stateAvail` a driver is AVAILABLE, so the drain
returns with fuel |queue| + 1. -/
theorem claim_C7_witness :
    ((∃ d ∈ stateAvail.drivers, d.status = .AVAILABLE) ∨
      ∀ q ∈ stateAvail.pending, is_pending_order stateAvail q = false) ∧
    ((on_driver_available "D1" (stateAvail.pending.length + 1) stateAvail).isSome ∧
      ((∀ q ∈ stateAvail.pending, is_pending_order stateAvail q = false) →
        on_driver_available "D1" (stateAvail.pending.length + 1) stateAvail =
          some { stateAvail with pending := [] })) :=
  ⟨Or.inl (by decide), claim_C7 stateAvail "D1" (Or.inl (by decide))⟩

/-! ### C8 counterexample: cancelling a queued order leaves its id queued -/

/-- C8 counterexample: `stateQueued` satisfies the claimed queue invariant
(O1 is PENDING, unmatched and queued), yet after the core operation
`cancel_order "O1"` the order is CANCELLED while its id is still in the
pending queue — cancellation does not remove the id, refuting both the
"queued only if PENDING" direction and the "cancelling removes the id"
part of the claim. -/
theorem claim_C8_counterexample :
    (cancel_order 2 stateQueued "O1").map
        (fun r => (r.2, r.1.pending.contains "O1",
          (getOrder r.1.orders "O1").map Order.status)) =
      some (none, true, some .CANCELLED) := by
  decide


/-! ### C5: payment idempotence -/

/-- `process_order_payment` on an already-paid order: the no-op branch —
an "already paid" notification is recorded and no error is raised. -/
theorem pay_already_paid {s : SysState} {order_id : String} {o : Order} {a : Rat}
    {m : PaymentMode}
    (ho : getOrder s.orders order_id = some o) (hp : o.is_paid = true) :
    process_order_payment s order_id a m =
      ({ s with notifications := (s.notifications ++
          [.notify ("Order " ++ order_id ++ " is already paid.")]) }, none) := by
  unfold process_order_payment
  rw [ho]
  simp [hp]

/-- C5: paying a delivered, unpaid order captures exactly one Payment
record and sets `payment_id`/`is_paid`; the second pay call returns
without error, performs no state change beyond the "already paid"
notification, and captures nothing. -/
theorem claim_C5 (s : SysState) (order_id : String) (o : Order)
    (a1 a2 : Rat) (m1 m2 : PaymentMode)
    (ho : getOrder s.orders order_id = some o)
    (hst : o.status = .DELIVERED) (hp : o.is_paid = false) :
    ∃ s1, process_order_payment s order_id a1 m1 = (s1, none) ∧
      s1.payments.length = s.payments.length + 1 ∧
      getOrder s1.orders order_id =
        some ({ o with payment_id := some ("PAY-" ++ toString s.payments.length),
                       is_paid := true }) ∧
      s1.drivers = s.drivers ∧ s1.pending = s.pending ∧
      process_order_payment s1 order_id a2 m2 =
        ({ s1 with notifications := (s1.notifications ++
            [.notify ("Order " ++ order_id ++ " is already paid.")]) }, none) := by
  have hoid : o.id = order_id := repoGet_key ho
  have hfirst : process_order_payment s order_id a1 m1 =
      ({ s with payments := (s.payments ++ [{ id := "PAY-" ++ toString s.payments.length, order_id := order_id, amount := a1, mode := m1, timestamp := s.now }]),
                orders := (saveOrder s.orders ({ o with payment_id := some ("PAY-" ++ toString s.payments.length), is_paid := true })),
                notifications := (s.notifications ++ [.notify ("Payment collected for Order " ++ order_id)]) }, none) := by
    unfold process_order_payment process_payment
    rw [ho]
    simp [hp]
  have hgot : getOrder (saveOrder s.orders ({ o with payment_id := some ("PAY-" ++ toString s.payments.length), is_paid := true })) order_id = some ({ o with payment_id := some ("PAY-" ++ toString s.payments.length), is_paid := true }) := by
    rw [show order_id = ({ o with payment_id := some ("PAY-" ++ toString s.payments.length), is_paid := true } : Order).id from hoid.symm]
    exact repoGet_save_self (fun o => o.id) s.orders _
  refine ⟨_, hfirst, by simp, hgot, rfl, rfl, ?_⟩
  exact pay_already_paid hgot rfl

/-- Witness for C5 at `stateDelivered`. -/
theorem claim_C5_witness :
    (getOrder stateDelivered.orders "O1" = some ({ oP1 with status := .DELIVERED, driver_id := some "D1" }) ∧
      ({ oP1 with status := .DELIVERED, driver_id := some "D1" } : Order).status = .DELIVERED ∧
      ({ oP1 with status := .DELIVERED, driver_id := some "D1" } : Order).is_paid = false) ∧
    (∃ s1, process_order_payment stateDelivered "O1" 100 .UPI = (s1, none) ∧
      s1.payments.length = stateDelivered.payments.length + 1 ∧
      getOrder s1.orders "O1" =
        some ({ ({ oP1 with status := .DELIVERED, driver_id := some "D1" } : Order) with payment_id := some ("PAY-" ++ toString stateDelivered.payments.length), is_paid := true }) ∧
      s1.drivers = stateDelivered.drivers ∧ s1.pending = stateDelivered.pending ∧
      process_order_payment s1 "O1" 50 .CASH =
        ({ s1 with notifications := (s1.notifications ++
            [.notify ("Order " ++ "O1" ++ " is already paid.")]) }, none)) :=
  ⟨⟨by decide, by decide, by decide⟩,
    claim_C5 stateDelivered "O1" _ 100 50 .UPI .CASH (by decide) (by decide) (by decide)⟩


/-! ### C1: cancel_order semantics -/

theorem can_be_cancelled_iff (o : Order) :
    o.can_be_cancelled = true ↔ (o.status = .PENDING ∨ o.status = .ASSIGNED) := by
  cases ho : o.status <;> simp [Order.can_be_cancelled, ho]

/-- Saving an updated copy of a fetched order makes the lookup return the
updated copy. -/
theorem getOrder_save_update {orders : List Order} {order_id : String} {o : Order} (o1 : Order)
    (ho : getOrder orders order_id = some o) (hid : o1.id = o.id) :
    getOrder (saveOrder orders o1) order_id = some o1 := by
  have hoid : o.id = order_id := repoGet_key ho
  rw [show order_id = o1.id from (hid.trans hoid).symm]
  exact repoGet_save_self (fun o => o.id) orders o1

/-- Full case analysis of `attempt_assignment`: it is a strict no-op, or
it queues the id, or it assigns the first AVAILABLE driver. -/
theorem attempt_spec (s : SysState) (order_id : String) :
    attempt_assignment s order_id = (false, s) ∨
    (∃ o2, getOrder s.orders order_id = some o2 ∧ o2.status = .PENDING ∧
      find_driver s.drivers = none ∧ order_id ∉ s.pending ∧
      attempt_assignment s order_id = (false, { s with pending := s.pending ++ [order_id] })) ∨
    (∃ o2 d, getOrder s.orders order_id = some o2 ∧ o2.status = .PENDING ∧
      find_driver s.drivers = some d ∧ d.status = .AVAILABLE ∧
      attempt_assignment s order_id =
        (true, { s with drivers := (saveDriver s.drivers ({ d with status := .BUSY })),
                        orders := (saveOrder s.orders
                          ({ o2 with driver_id := some d.id, status := .ASSIGNED })) })) := by
  cases ho : getOrder s.orders order_id with
  | none => exact Or.inl (attempt_of_missing ho)
  | some o2 =>
    by_cases hs : o2.status = .PENDING
    · cases hd : find_driver s.drivers with
      | none =>
        by_cases hm : order_id ∈ s.pending
        · exact Or.inl (attempt_of_no_driver_mem ho hs hd hm)
        · exact Or.inr (Or.inl ⟨o2, rfl, hs, rfl, hm, attempt_of_no_driver_not_mem ho hs hd hm⟩)
      | some d =>
        exact Or.inr (Or.inr ⟨o2, d, rfl, hs, rfl, (find_driver_some hd).2,
          attempt_of_driver ho hs hd⟩)
    · exact Or.inl (attempt_of_not_pending ho hs)

/-- A stored order that is not PENDING survives any queue drain untouched. -/
theorem drain_preserves_order :
    ∀ (fuel : Nat) (s s' : SysState) (driver_id oid : String) (o : Order),
      on_driver_available driver_id fuel s = some s' →
      getOrder s.orders oid = some o → o.status ≠ .PENDING →
      getOrder s'.orders oid = some o := by
  intro fuel
  induction fuel with
  | zero => intro s s' driver_id oid o h; cases h
  | succ n ih =>
    intro s s' driver_id oid o h ho hs
    obtain ⟨ords, drvs, pnd, pays, custs, nots, nw⟩ := s
    cases pnd with
    | nil =>
      cases h
      exact ho
    | cons q rest =>
      have hunf : on_driver_available driver_id (n + 1)
            ⟨ords, drvs, q :: rest, pays, custs, nots, nw⟩
          = (match attempt_assignment ⟨ords, drvs, rest, pays, custs, nots, nw⟩ q with
             | (true, s2) => some s2
             | (false, s2) => on_driver_available driver_id n s2) := rfl
      rw [hunf] at h
      rcases attempt_spec ⟨ords, drvs, rest, pays, custs, nots, nw⟩ q with hat |
        ⟨o2, _ho2, _hp2, _hfd, _hm, hat⟩ | ⟨o2, d, ho2, hp2, _hfd, _hda, hat⟩
      · rw [hat] at h
        exact ih _ _ driver_id oid o h ho hs
      · rw [hat] at h
        exact ih _ _ driver_id oid o h ho hs
      · rw [hat] at h
        cases h
        show getOrder (saveOrder ords _) oid = some o
        have hq : o2.id = q := repoGet_key ho2
        by_cases hqo : q = oid
        · exfalso
          apply hs
          subst hqo
          have heq : o2 = o := Option.some.inj (ho2.symm.trans ho)
          rw [← heq]
          exact hp2
        · exact (repoGet_save_ne (by simpa [hq] using hqo)).trans ho

/-- `cancel_order` on a non-cancellable order: error, state untouched. -/
theorem cancel_not_cancellable {fuel : Nat} {s : SysState} {order_id : String} {o : Order}
    (ho : getOrder s.orders order_id = some o) (hc : o.can_be_cancelled = false) :
    cancel_order fuel s order_id = some (s, some (.notCancellable order_id o.status)) := by
  unfold cancel_order
  rw [ho]
  simp [hc]

/-- `cancel_order` on a cancellable order holding no driver: the order is
saved CANCELLED, a notification is recorded, nothing else changes, and no
queue drain happens. -/
theorem cancel_no_driver {fuel : Nat} {s : SysState} {order_id : String} {o : Order}
    (ho : getOrder s.orders order_id = some o) (hc : o.can_be_cancelled = true)
    (hd : o.driver_id = none) :
    cancel_order fuel s order_id =
      some ({ s with orders := (saveOrder s.orders ({ o with status := .CANCELLED, driver_id := none })),
                     notifications := (s.notifications ++ [.notify ("Order " ++ order_id ++ " has been cancelled.")]) }, none) := by
  unfold cancel_order
  rw [ho]
  simp [hc, hd]

/-- `cancel_order` on a cancellable order holding an existing driver: the
order is saved CANCELLED, the driver is freed, notifications recorded,
then the queue is drained. -/
theorem cancel_with_driver (fuel : Nat) {s : SysState} {order_id : String} {o : Order}
    {prev : String} {dprev : Driver}
    (ho : getOrder s.orders order_id = some o) (hc : o.can_be_cancelled = true)
    (hd : o.driver_id = some prev) (hdrv : getDriver s.drivers prev = some dprev) :
    cancel_order fuel s order_id =
      (on_driver_available prev fuel
        { s with orders := (saveOrder s.orders ({ o with status := .CANCELLED, driver_id := none })),
                 drivers := (saveDriver s.drivers ({ dprev with status := .AVAILABLE })),
                 notifications := (s.notifications ++ [.notify ("Order " ++ order_id ++ " has been cancelled."), .notify ("Driver " ++ prev ++ " is now available due to order cancellation.")]) }).map
        (fun s5 => (s5, none)) := by
  unfold cancel_order update_status
  rw [ho]
  simp only [hc, Bool.true_eq_false, if_false, hd]
  rw [show getDriver ({ s with orders := (saveOrder s.orders ({ o with status := .CANCELLED, driver_id := none })), notifications := (s.notifications ++ [.notify ("Order " ++ order_id ++ " has been cancelled.")]) } : SysState).drivers prev = some dprev from hdrv]
  simp only [List.append_assoc, List.singleton_append, List.cons_append, List.nil_append]
  cases hdr : on_driver_available prev fuel _ <;> simp [hdr]


/-- C1: for an existing order (whose held driver, if any, exists),
`cancel_order` succeeds exactly on PENDING/ASSIGNED — setting the order
CANCELLED with `driver_id` cleared and, when a driver was held, setting
that driver back to AVAILABLE (stated for drains that do not immediately
re-assign him, i.e. when no queued entry is still PENDING) — and on
PICKED_UP/DELIVERED/CANCELLED it raises the not-cancellable error leaving
the whole state unchanged. -/
theorem claim_C1 (s : SysState) (order_id : String) (o : Order)
    (ho : getOrder s.orders order_id = some o)
    (hdrv : o.driver_id.all (fun did => (getDriver s.drivers did).isSome) = true) :
    ((o.status = .PENDING ∨ o.status = .ASSIGNED) →
      ∃ s1, cancel_order (s.pending.length + 1) s order_id = some (s1, none) ∧
        getOrder s1.orders order_id = some ({ o with status := .CANCELLED, driver_id := none }) ∧
        (o.driver_id = none → s1.drivers = s.drivers ∧ s1.pending = s.pending) ∧
        (∀ did, o.driver_id = some did →
          (∀ q ∈ s.pending, is_pending_order s q = false) →
          ∃ d1, getDriver s1.drivers did = some d1 ∧ d1.status = .AVAILABLE)) ∧
    ((o.status = .PICKED_UP ∨ o.status = .DELIVERED ∨ o.status = .CANCELLED) →
      cancel_order (s.pending.length + 1) s order_id =
        some (s, some (.notCancellable order_id o.status))) := by
  constructor
  · intro hst
    have hc : o.can_be_cancelled = true := (can_be_cancelled_iff o).mpr hst
    cases hdid : o.driver_id with
    | none =>
      refine ⟨_, cancel_no_driver ho hc hdid, getOrder_save_update _ ho rfl,
        fun _ => ⟨rfl, rfl⟩, ?_⟩
      intro did hsome _
      exact Option.noConfusion hsome
    | some prev =>
      rw [hdid] at hdrv
      have hsm : (getDriver s.drivers prev).isSome := by simpa using hdrv
      obtain ⟨dprev, hdp⟩ := Option.isSome_iff_exists.mp hsm
      have hprev : dprev.id = prev := repoGet_key hdp
      have hcw := cancel_with_driver (s.pending.length + 1) ho hc hdid hdp
      set s4 : SysState :=
        { s with orders := (saveOrder s.orders ({ o with status := .CANCELLED, driver_id := none })),
                 drivers := (saveDriver s.drivers ({ dprev with status := .AVAILABLE })),
                 notifications := (s.notifications ++ [.notify ("Order " ++ order_id ++ " has been cancelled."), .notify ("Driver " ++ prev ++ " is now available due to order cancellation.")]) }
        with hs4
      have hp4 : s4.pending = s.pending := by rw [hs4]
      have hmem4 : ({ dprev with status := .AVAILABLE } : Driver) ∈ s4.drivers := by
        rw [hs4]
        exact repoGet_mem (repoGet_save_self (fun d => d.id) s.drivers _)
      have hterm : (on_driver_available prev (s.pending.length + 1) s4).isSome :=
        drain_terminates_of_avail s.pending s4 prev hp4
          ⟨{ dprev with status := .AVAILABLE }, hmem4, rfl⟩
      obtain ⟨s5, hdr⟩ := Option.isSome_iff_exists.mp hterm
      rw [hdr] at hcw
      have hgot4 : getOrder s4.orders order_id =
          some ({ o with status := .CANCELLED, driver_id := none }) := by
        rw [hs4]
        exact getOrder_save_update _ ho rfl
      refine ⟨s5, hcw, ?_, ?_, ?_⟩
      · exact drain_preserves_order _ s4 s5 prev order_id _ hdr hgot4 (by simp)
      · intro hnone
        exact Option.noConfusion hnone
      · intro did hsome hstale
        have hdip : did = prev := (Option.some.inj hsome).symm
        subst hdip
        have hstale4 : ∀ q ∈ s4.pending, is_pending_order s4 q = false := by
          intro q hq
          rw [hp4] at hq
          have hbase := hstale q hq
          unfold is_pending_order at hbase ⊢
          by_cases hqo : q = order_id
          · subst hqo
            rw [show getOrder s4.orders q =
                some ({ o with status := .CANCELLED, driver_id := none }) from hgot4]
            rfl
          · rw [show getOrder s4.orders q = getOrder s.orders q from by
              rw [hs4]
              exact repoGet_save_ne (by
                have : o.id = order_id := repoGet_key ho
                simpa [this] using fun hx => hqo hx.symm)]
            exact hbase
        have hall := drain_all_stale s.pending s4 did hp4 hstale4
        rw [hdr] at hall
        have hs5 : s5 = { s4 with pending := [] } := Option.some.inj hall
        refine ⟨{ dprev with status := .AVAILABLE }, ?_, rfl⟩
        rw [hs5]
        show getDriver s4.drivers did = _
        rw [hs4]
        show getDriver (saveDriver s.drivers ({ dprev with status := .AVAILABLE })) did = _
        rw [show did = ({ dprev with status := .AVAILABLE } : Driver).id from hprev.symm]
        exact repoGet_save_self (fun d => d.id) s.drivers _
  · intro hst
    have hc : o.can_be_cancelled = false := by
      rcases hst with h | h | h <;> simp [Order.can_be_cancelled, h]
    exact cancel_not_cancellable ho hc

/-- Witness for C1 at `stateAssigned`: cancelling the ASSIGNED order O1
succeeds, clears the driver, and frees D1. -/
theorem claim_C1_witness :
    (getOrder stateAssigned.orders "O1" = some ({ oP1 with status := .ASSIGNED, driver_id := some "D1" }) ∧
      ({ oP1 with status := .ASSIGNED, driver_id := some "D1" } : Order).driver_id.all
        (fun did => (getDriver stateAssigned.drivers did).isSome) = true ∧
      (({ oP1 with status := .ASSIGNED, driver_id := some "D1" } : Order).status = .PENDING ∨
        ({ oP1 with status := .ASSIGNED, driver_id := some "D1" } : Order).status = .ASSIGNED)) ∧
    (∃ s1, cancel_order (stateAssigned.pending.length + 1) stateAssigned "O1" = some (s1, none) ∧
      getOrder s1.orders "O1" = some ({ ({ oP1 with status := .ASSIGNED, driver_id := some "D1" } : Order) with status := .CANCELLED, driver_id := none }) ∧
      (({ oP1 with status := .ASSIGNED, driver_id := some "D1" } : Order).driver_id = none →
        s1.drivers = stateAssigned.drivers ∧ s1.pending = stateAssigned.pending) ∧
      (∀ did, ({ oP1 with status := .ASSIGNED, driver_id := some "D1" } : Order).driver_id = some did →
        (∀ q ∈ stateAssigned.pending, is_pending_order stateAssigned q = false) →
        ∃ d1, getDriver s1.drivers did = some d1 ∧ d1.status = .AVAILABLE)) :=
  ⟨⟨by decide, by decide, Or.inr (by decide)⟩,
    (claim_C1 stateAssigned "O1" _ (by decide) (by decide)).1 (Or.inr (by decide))⟩



/-! ### Invariant step lemmas -/

theorem getOrder_as_repoGet (orders : List Order) (order_id : String) :
    getOrder orders order_id = repoGet (fun o => o.id) orders order_id := rfl

theorem saveOrder_as_repoSave (orders : List Order) (o : Order) :
    saveOrder orders o = repoSave (fun o => o.id) orders o := rfl

theorem getDriver_as_repoGet (drivers : List Driver) (driver_id : String) :
    getDriver drivers driver_id = repoGet (fun d => d.id) drivers driver_id := rfl

theorem saveDriver_as_repoSave (drivers : List Driver) (d : Driver) :
    saveDriver drivers d = repoSave (fun d => d.id) drivers d := rfl

theorem nonTerminalCount_as_countP (orders : List Order) (x : String) :
    nonTerminalCount orders x = orders.countP (nonTerminalFor x) := rfl

theorem ordersLink_save {orders : List Order} {o1 : Order}
    (h : OrdersLinkInv orders)
    (h1 : o1.driver_id ≠ none ↔
      (o1.status = .ASSIGNED ∨ o1.status = .PICKED_UP ∨ o1.status = .DELIVERED)) :
    OrdersLinkInv (saveOrder orders o1) := by
  intro x hx
  rcases mem_repoSave (by rw [← saveOrder_as_repoSave]; exact hx) with rfl | hx2
  · exact h1
  · exact h x hx2

theorem queueWF_save {orders : List Order} {pending : List String} {order_id : String}
    {o o1 : Order} (hq : QueueWF orders pending)
    (ho : getOrder orders order_id = some o)
    (hN : (orders.map (fun o => o.id)).Nodup)
    (hid : o1.id = o.id)
    (h1 : o1.status = .PENDING → o1.id ∈ pending) :
    QueueWF (saveOrder orders o1) pending := by
  rw [getOrder_as_repoGet] at ho
  obtain ⟨l1, l2, hdec, hl1, hl2, hko, hsave⟩ := repoGet_decomp_nodup ho hN
  refine ⟨hq.1, ?_, ?_⟩
  · intro q hqm
    rw [getOrder_as_repoGet, saveOrder_as_repoSave]
    exact isSome_repoGet_save (hq.2.1 q hqm)
  · intro x hx hxs
    rw [saveOrder_as_repoSave, hsave o1 (hid.trans hko)] at hx
    rcases List.mem_append.mp hx with hx1 | hx2
    · exact hq.2.2 x (by rw [hdec]; exact List.mem_append_left _ hx1) hxs
    · rcases List.mem_cons.mp hx2 with rfl | hx2
      · exact h1 hxs
      · exact hq.2.2 x (by
          rw [hdec]
          exact List.mem_append_right _ (List.mem_cons_of_mem _ hx2)) hxs

theorem countP_save_same {key : α → String} {l : List α} {k : String} {x x1 : α}
    (p : α → Bool) (h : repoGet key l k = some x) (h1 : key x1 = k)
    (hx : p x = p x1) :
    (repoSave key l x1).countP p = l.countP p := by
  have h2 := countP_repoSave p h h1
  rw [hx] at h2
  omega

theorem countP_save_incr {key : α → String} {l : List α} {k : String} {x x1 : α}
    (p : α → Bool) (h : repoGet key l k = some x) (h1 : key x1 = k)
    (hx : p x = false) (hx1 : p x1 = true) :
    (repoSave key l x1).countP p = l.countP p + 1 := by
  have h2 := countP_repoSave p h h1
  rw [hx, hx1] at h2
  simpa using h2

theorem countP_save_decr {key : α → String} {l : List α} {k : String} {x x1 : α}
    (p : α → Bool) (h : repoGet key l k = some x) (h1 : key x1 = k)
    (hx : p x = true) (hx1 : p x1 = false) :
    (repoSave key l x1).countP p + 1 = l.countP p := by
  have h2 := countP_repoSave p h h1
  rw [hx, hx1] at h2
  simpa using h2

theorem driversLink_save_order {orders : List Order} {drivers : List Driver}
    {order_id : String} {o o1 : Order}
    (hdl : DriversLinkInv orders drivers)
    (ho : getOrder orders order_id = some o) (hid : o1.id = o.id)
    (hsame : ∀ x, nonTerminalFor x o1 = nonTerminalFor x o) :
    DriversLinkInv (saveOrder orders o1) drivers := by
  rw [getOrder_as_repoGet] at ho
  intro d hd
  have h2 := hdl d hd
  rw [nonTerminalCount_as_countP] at h2
  rw [nonTerminalCount_as_countP, saveOrder_as_repoSave,
    countP_save_same (nonTerminalFor d.id) ho (hid.trans (repoGet_key ho)) (hsame d.id).symm]
  exact h2

theorem driversLink_acquire {orders : List Order} {drivers : List Driver}
    {order_id : String} {o o1 : Order} {d : Driver}
    (hdl : DriversLinkInv orders drivers)
    (hwD : (drivers.map (fun d => d.id)).Nodup)
    (ho : getOrder orders order_id = some o)
    (hid : o1.id = o.id)
    (hpo : ∀ x, nonTerminalFor x o = false)
    (hpo1 : ∀ x, nonTerminalFor x o1 = (d.id == x))
    (hgd : getDriver drivers d.id = some d)
    (hda : d.status = .AVAILABLE) :
    DriversLinkInv (saveOrder orders o1) (saveDriver drivers ({ d with status := .BUSY })) := by
  rw [getOrder_as_repoGet] at ho
  rw [getDriver_as_repoGet] at hgd
  obtain ⟨m1, m2, hdec, hm1, hm2, hkd, hsaveD⟩ := repoGet_decomp_nodup hgd hwD
  rw [saveDriver_as_repoSave, hsaveD ({ d with status := .BUSY }) rfl]
  intro d' hd'
  rw [nonTerminalCount_as_countP, saveOrder_as_repoSave]
  rcases List.mem_append.mp hd' with hd1 | hd2
  · have hne : d'.id ≠ d.id := fun hc => hm1 d' hd1 hc
    have h2 := hdl d' (by rw [hdec]; exact List.mem_append_left _ hd1)
    rw [nonTerminalCount_as_countP] at h2
    have hx : nonTerminalFor d'.id o = nonTerminalFor d'.id o1 := by
      rw [hpo d'.id, hpo1 d'.id]
      symm
      simp only [beq_eq_false_iff_ne, ne_eq]
      exact fun hc => hne hc.symm
    rw [countP_save_same (nonTerminalFor d'.id) ho (hid.trans (repoGet_key ho)) hx]
    exact h2
  · rcases List.mem_cons.mp hd2 with rfl | hd2
    · dsimp only
      rw [if_pos rfl]
      have h2 := hdl d (by rw [hdec]; exact List.mem_append_right _ (List.mem_cons_self _ _))
      rw [nonTerminalCount_as_countP, hda, if_neg (by simp)] at h2
      rw [countP_save_incr (nonTerminalFor d.id) ho (hid.trans (repoGet_key ho)) (hpo d.id)
        (by rw [hpo1 d.id]; simp), h2]
    · have hne : d'.id ≠ d.id := fun hc => hm2 d' hd2 hc
      have h2 := hdl d' (by
        rw [hdec]
        exact List.mem_append_right _ (List.mem_cons_of_mem _ hd2))
      rw [nonTerminalCount_as_countP] at h2
      have hx : nonTerminalFor d'.id o = nonTerminalFor d'.id o1 := by
        rw [hpo d'.id, hpo1 d'.id]
        symm
        simp only [beq_eq_false_iff_ne, ne_eq]
        exact fun hc => hne hc.symm
      rw [countP_save_same (nonTerminalFor d'.id) ho (hid.trans (repoGet_key ho)) hx]
      exact h2

theorem driversLink_release_found {orders : List Order} {drivers : List Driver}
    {order_id did : String} {o o1 : Order} {dp : Driver}
    (hdl : DriversLinkInv orders drivers)
    (hwD : (drivers.map (fun d => d.id)).Nodup)
    (ho : getOrder orders order_id = some o)
    (hid : o1.id = o.id)
    (hpo : ∀ x, nonTerminalFor x o = (did == x))
    (hpo1 : ∀ x, nonTerminalFor x o1 = false)
    (hgd : getDriver drivers did = some dp) :
    DriversLinkInv (saveOrder orders o1)
      (saveDriver drivers ({ dp with status := .AVAILABLE })) := by
  rw [getOrder_as_repoGet] at ho
  rw [getDriver_as_repoGet] at hgd
  obtain ⟨m1, m2, hdec, hm1, hm2, hkd, hsaveD⟩ := repoGet_decomp_nodup hgd hwD
  rw [saveDriver_as_repoSave, hsaveD ({ dp with status := .AVAILABLE }) hkd]
  intro d' hd'
  rw [nonTerminalCount_as_countP, saveOrder_as_repoSave]
  rcases List.mem_append.mp hd' with hd1 | hd2
  · have hne : d'.id ≠ did := fun hc => hm1 d' hd1 hc
    have h2 := hdl d' (by rw [hdec]; exact List.mem_append_left _ hd1)
    rw [nonTerminalCount_as_countP] at h2
    have hx : nonTerminalFor d'.id o = nonTerminalFor d'.id o1 := by
      rw [hpo d'.id, hpo1 d'.id]
      simp only [beq_eq_false_iff_ne, ne_eq]
      exact fun hc => hne hc.symm
    rw [countP_save_same (nonTerminalFor d'.id) ho (hid.trans (repoGet_key ho)) hx]
    exact h2
  · rcases List.mem_cons.mp hd2 with rfl | hd2
    · dsimp only
      rw [if_neg (by simp)]
      have h2 := hdl dp (by rw [hdec]; exact List.mem_append_right _ (List.mem_cons_self _ _))
      rw [nonTerminalCount_as_countP] at h2
      have hdecr := countP_save_decr (nonTerminalFor dp.id) ho (hid.trans (repoGet_key ho))
        (by rw [hpo dp.id, hkd]; simp) (hpo1 dp.id)
      rcases hds : dp.status with h | h <;> rw [hds] at h2
      · rw [if_neg (by simp)] at h2
        omega
      · rw [if_pos rfl] at h2
        omega
    · have hne : d'.id ≠ did := fun hc => hm2 d' hd2 hc
      have h2 := hdl d' (by
        rw [hdec]
        exact List.mem_append_right _ (List.mem_cons_of_mem _ hd2))
      rw [nonTerminalCount_as_countP] at h2
      have hx : nonTerminalFor d'.id o = nonTerminalFor d'.id o1 := by
        rw [hpo d'.id, hpo1 d'.id]
        simp only [beq_eq_false_iff_ne, ne_eq]
        exact fun hc => hne hc.symm
      rw [countP_save_same (nonTerminalFor d'.id) ho (hid.trans (repoGet_key ho)) hx]
      exact h2

theorem driversLink_release_missing {orders : List Order} {drivers : List Driver}
    {order_id did : String} {o o1 : Order}
    (hdl : DriversLinkInv orders drivers)
    (ho : getOrder orders order_id = some o)
    (hid : o1.id = o.id)
    (hpo : ∀ x, nonTerminalFor x o = (did == x))
    (hpo1 : ∀ x, nonTerminalFor x o1 = false)
    (hgd : getDriver drivers did = none) :
    DriversLinkInv (saveOrder orders o1) drivers := by
  rw [getOrder_as_repoGet] at ho
  rw [getDriver_as_repoGet] at hgd
  intro d' hd'
  have hne : d'.id ≠ did := fun hc => (repoGet_eq_none.mp hgd) d' hd' hc
  have h2 := hdl d' hd'
  rw [nonTerminalCount_as_countP] at h2
  have hx : nonTerminalFor d'.id o = nonTerminalFor d'.id o1 := by
    rw [hpo d'.id, hpo1 d'.id]
    simp only [beq_eq_false_iff_ne, ne_eq]
    exact fun hc => hne hc.symm
  rw [nonTerminalCount_as_countP, saveOrder_as_repoSave,
    countP_save_same (nonTerminalFor d'.id) ho (hid.trans (repoGet_key ho)) hx]
  exact h2

theorem driversLink_update_same_status {orders : List Order} {drivers : List Driver}
    {k : String} {d d1 : Driver}
    (hdl : DriversLinkInv orders drivers)
    (hwD : (drivers.map (fun d => d.id)).Nodup)
    (hgd : getDriver drivers k = some d)
    (hid : d1.id = d.id) (hst : d1.status = d.status) :
    DriversLinkInv orders (saveDriver drivers d1) := by
  rw [getDriver_as_repoGet] at hgd
  obtain ⟨m1, m2, hdec, hm1, hm2, hkd, hsaveD⟩ := repoGet_decomp_nodup hgd hwD
  rw [saveDriver_as_repoSave, hsaveD d1 (hid.trans hkd)]
  intro d' hd'
  rcases List.mem_append.mp hd' with hd1 | hd2
  · exact hdl d' (by rw [hdec]; exact List.mem_append_left _ hd1)
  · rcases List.mem_cons.mp hd2 with rfl | hd2
    · have h2 := hdl d (by rw [hdec]; exact List.mem_append_right _ (List.mem_cons_self _ _))
      rw [hid, hst]
      exact h2
    · exact hdl d' (by
        rw [hdec]
        exact List.mem_append_right _ (List.mem_cons_of_mem _ hd2))


theorem attempt_spec5 (s : SysState) (order_id : String) :
    (getOrder s.orders order_id = none ∧ attempt_assignment s order_id = (false, s)) ∨
    (∃ o2, getOrder s.orders order_id = some o2 ∧ o2.status ≠ .PENDING ∧
      attempt_assignment s order_id = (false, s)) ∨
    (∃ o2, getOrder s.orders order_id = some o2 ∧ o2.status = .PENDING ∧
      find_driver s.drivers = none ∧ order_id ∈ s.pending ∧
      attempt_assignment s order_id = (false, s)) ∨
    (∃ o2, getOrder s.orders order_id = some o2 ∧ o2.status = .PENDING ∧
      find_driver s.drivers = none ∧ order_id ∉ s.pending ∧
      attempt_assignment s order_id = (false, { s with pending := s.pending ++ [order_id] })) ∨
    (∃ o2 d, getOrder s.orders order_id = some o2 ∧ o2.status = .PENDING ∧
      find_driver s.drivers = some d ∧ d.status = .AVAILABLE ∧
      attempt_assignment s order_id =
        (true, { s with drivers := (saveDriver s.drivers ({ d with status := .BUSY })),
                        orders := (saveOrder s.orders
                          ({ o2 with driver_id := some d.id, status := .ASSIGNED })) })) := by
  cases ho : getOrder s.orders order_id with
  | none => exact Or.inl ⟨rfl, attempt_of_missing ho⟩
  | some o2 =>
    by_cases hs : o2.status = .PENDING
    · cases hd : find_driver s.drivers with
      | none =>
        by_cases hm : order_id ∈ s.pending
        · exact Or.inr (Or.inr (Or.inl ⟨o2, rfl, hs, rfl, hm,
            attempt_of_no_driver_mem ho hs hd hm⟩))
        · exact Or.inr (Or.inr (Or.inr (Or.inl ⟨o2, rfl, hs, rfl, hm,
            attempt_of_no_driver_not_mem ho hs hd hm⟩)))
      | some d =>
        exact Or.inr (Or.inr (Or.inr (Or.inr ⟨o2, d, rfl, hs, rfl, (find_driver_some hd).2,
          attempt_of_driver ho hs hd⟩)))
    · exact Or.inr (Or.inl ⟨o2, rfl, hs, attempt_of_not_pending ho hs⟩)

theorem queueWF_to_x {orders : List Order} {pending : List String} (order_id : String)
    (h : QueueWF orders pending) : QueueWFx orders pending order_id :=
  ⟨h.1, h.2.1, fun o ho hs => Or.inl (h.2.2 o ho hs)⟩

/-- `attempt_assignment` restores the full invariant even from a state
where its target order is allowed to be missing from the queue. -/
theorem inv_attempt_x {s : SysState} {order_id : String}
    (hw : StoreWF s.orders s.drivers) (hol : OrdersLinkInv s.orders)
    (hdl : DriversLinkInv s.orders s.drivers)
    (hq : QueueWFx s.orders s.pending order_id) :
    Inv (attempt_assignment s order_id).2 := by
  rcases attempt_spec5 s order_id with ⟨ho, hat⟩ | ⟨o2, ho, hs, hat⟩ |
    ⟨o2, ho, hs, hfd, hm, hat⟩ | ⟨o2, ho, hs, hfd, hm, hat⟩ | ⟨o2, d, ho, hs, hfd, hda, hat⟩
  · rw [hat]
    refine ⟨hw, hol, hdl, hq.1, hq.2.1, ?_⟩
    intro o hoo hos
    rcases hq.2.2 o hoo hos with h | h
    · exact h
    · exact absurd h ((repoGet_eq_none.mp (by rw [getOrder_as_repoGet] at ho; exact ho)) o hoo)
  · rw [hat]
    refine ⟨hw, hol, hdl, hq.1, hq.2.1, ?_⟩
    intro o hoo hos
    rcases hq.2.2 o hoo hos with h | h
    · exact h
    · exfalso
      have hgo : getOrder s.orders o.id = some o := by
        rw [getOrder_as_repoGet]
        exact repoGet_mem_nodup hw.1 hoo
      rw [h] at hgo
      have heq : o = o2 := Option.some.inj (hgo.symm.trans ho)
      exact hs (heq ▸ hos)
  · rw [hat]
    refine ⟨hw, hol, hdl, hq.1, hq.2.1, ?_⟩
    intro o hoo hos
    rcases hq.2.2 o hoo hos with h | h
    · exact h
    · rw [h]
      exact hm
  · rw [hat]
    refine ⟨hw, hol, hdl, ?_, ?_, ?_⟩
    · rw [List.nodup_append]
      exact ⟨hq.1, List.nodup_singleton _,
        fun x hx hx2 => hm (List.mem_singleton.mp hx2 ▸ hx)⟩
    · intro q hq2
      rcases List.mem_append.mp hq2 with h | h
      · exact hq.2.1 q h
      · rw [List.mem_singleton.mp h, ho]
        rfl
    · intro o hoo hos
      rcases hq.2.2 o hoo hos with h | h
      · exact List.mem_append_left _ h
      · exact List.mem_append_right _ (by rw [h]; exact List.mem_singleton.mpr rfl)
  · rw [hat]
    have hoid : o2.id = order_id := repoGet_key (by rw [getOrder_as_repoGet] at ho; exact ho)
    have hgd : getDriver s.drivers d.id = some d := by
      rw [getDriver_as_repoGet]
      exact repoGet_mem_nodup hw.2 (find_driver_some hfd).1
    have ho2 : repoGet (fun o => o.id) s.orders order_id = some o2 := ho
    have hgd2 : repoGet (fun d => d.id) s.drivers d.id = some d := hgd
    refine ⟨⟨?_, ?_⟩, ?_, ?_, ?_, ?_, ?_⟩
    · show ((repoSave (fun o => o.id) s.orders
          ({ o2 with driver_id := some d.id, status := .ASSIGNED })).map (fun o => o.id)).Nodup
      rw [map_key_repoSave_of_some ({ o2 with driver_id := some d.id, status := .ASSIGNED })
        ho2 hoid]
      exact hw.1
    · show ((repoSave (fun d => d.id) s.drivers ({ d with status := .BUSY })).map (fun d => d.id)).Nodup
      rw [map_key_repoSave_of_some ({ d with status := .BUSY }) hgd2 rfl]
      exact hw.2
    · exact ordersLink_save hol (by simp)
    · exact driversLink_acquire hdl hw.2 ho rfl
        (fun x => by simp [nonTerminalFor, hs])
        (fun x => by simp [nonTerminalFor])
        hgd hda
    · exact hq.1
    · intro q hq2
      show (repoGet (fun o => o.id) (repoSave (fun o => o.id) s.orders
        ({ o2 with driver_id := some d.id, status := .ASSIGNED })) q).isSome
      exact isSome_repoGet_save (hq.2.1 q hq2)
    · intro o hoo hos
      have hoo2 : o ∈ saveOrder s.orders ({ o2 with driver_id := some d.id, status := .ASSIGNED }) := hoo
      obtain ⟨l1, l2, hdec, hl1, hl2, hko, hsave⟩ := repoGet_decomp_nodup ho2 hw.1
      rw [saveOrder_as_repoSave,
        hsave ({ o2 with driver_id := some d.id, status := .ASSIGNED }) hoid] at hoo2
      rcases List.mem_append.mp hoo2 with h1 | h2
      · rcases hq.2.2 o (by rw [hdec]; exact List.mem_append_left _ h1) hos with h | h
        · exact h
        · exact absurd h (hl1 o h1)
      · rcases List.mem_cons.mp h2 with rfl | h2
        · exact absurd hos (by simp)
        · rcases hq.2.2 o (by
            rw [hdec]
            exact List.mem_append_right _ (List.mem_cons_of_mem _ h2)) hos with h | h
          · exact h
          · exact absurd h (hl2 o h2)

theorem inv_attempt {s : SysState} (hI : Inv s) (order_id : String) :
    Inv (attempt_assignment s order_id).2 :=
  inv_attempt_x hI.1 hI.2.1 hI.2.2.1 (queueWF_to_x order_id hI.2.2.2)

/-- The queue drain preserves the reachable-state invariant. -/
theorem inv_drain :
    ∀ (fuel : Nat) (s s' : SysState) (driver_id : String), Inv s →
      on_driver_available driver_id fuel s = some s' → Inv s' := by
  intro fuel
  induction fuel with
  | zero => intro s s' driver_id _ h; cases h
  | succ n ih =>
    intro s s' driver_id hI h
    obtain ⟨ords, drvs, pnd, pays, custs, nots, nw⟩ := s
    cases pnd with
    | nil =>
      cases h
      exact hI
    | cons q rest =>
      have hunf : on_driver_available driver_id (n + 1)
            ⟨ords, drvs, q :: rest, pays, custs, nots, nw⟩
          = (match attempt_assignment ⟨ords, drvs, rest, pays, custs, nots, nw⟩ q with
             | (true, s2) => some s2
             | (false, s2) => on_driver_available driver_id n s2) := rfl
      rw [hunf] at h
      have hx : QueueWFx ords rest q := by
        obtain ⟨hw, hol, hdl, hqw⟩ := hI
        refine ⟨(List.nodup_cons.mp hqw.1).2,
          fun q' hq' => hqw.2.1 q' (List.mem_cons_of_mem _ hq'), ?_⟩
        intro o ho hs
        rcases List.mem_cons.mp (hqw.2.2 o ho hs) with h1 | h1
        · exact Or.inr h1
        · exact Or.inl h1
      have hI2 : Inv ((attempt_assignment ⟨ords, drvs, rest, pays, custs, nots, nw⟩ q).2) :=
        inv_attempt_x hI.1 hI.2.1 hI.2.2.1 hx
      rcases hat : attempt_assignment ⟨ords, drvs, rest, pays, custs, nots, nw⟩ q with ⟨b, s2⟩
      rw [hat] at h hI2
      cases b
      · exact ih s2 s' driver_id hI2 h
      · cases h
        exact hI2


/-! ### Remaining operation unfolding lemmas -/

theorem cancel_missing {fuel : Nat} {s : SysState} {order_id : String}
    (ho : getOrder s.orders order_id = none) :
    cancel_order fuel s order_id = some (s, some (.orderNotFound order_id)) := by
  unfold cancel_order
  rw [ho]

theorem cancel_driver_missing {fuel : Nat} {s : SysState} {order_id : String} {o : Order}
    {prev : String}
    (ho : getOrder s.orders order_id = some o) (hc : o.can_be_cancelled = true)
    (hd : o.driver_id = some prev) (hdrv : getDriver s.drivers prev = none) :
    cancel_order fuel s order_id =
      some ({ s with orders := (saveOrder s.orders ({ o with status := .CANCELLED, driver_id := none })),
                     notifications := (s.notifications ++ [.notify ("Order " ++ order_id ++ " has been cancelled.")]) },
            some (.driverNotFound prev)) := by
  unfold cancel_order update_status
  rw [ho]
  simp only [hc, Bool.true_eq_false, if_false, hd]
  rw [show getDriver ({ s with orders := (saveOrder s.orders ({ o with status := .CANCELLED, driver_id := none })), notifications := (s.notifications ++ [.notify ("Order " ++ order_id ++ " has been cancelled.")]) } : SysState).drivers prev = none from hdrv]

theorem complete_missing {fuel : Nat} {s : SysState} {driver_id order_id : String}
    (ho : getOrder s.orders order_id = none) :
    complete_order fuel s driver_id order_id = some (s, some (.orderNotFound order_id)) := by
  unfold complete_order
  rw [ho]

theorem complete_not_picked {fuel : Nat} {s : SysState} {driver_id order_id : String} {o : Order}
    (ho : getOrder s.orders order_id = some o) (hs : o.status ≠ .PICKED_UP) :
    complete_order fuel s driver_id order_id =
      some (s, some (.invalidState order_id o.status .PICKED_UP "completed")) := by
  unfold complete_order
  rw [ho]
  simp [hs]

theorem complete_not_assigned {fuel : Nat} {s : SysState} {driver_id order_id : String} {o : Order}
    (ho : getOrder s.orders order_id = some o) (hs : o.status = .PICKED_UP)
    (hd : o.driver_id ≠ some driver_id) :
    complete_order fuel s driver_id order_id =
      some (s, some (.notAssigned driver_id order_id)) := by
  unfold complete_order
  rw [ho]
  simp [hs, hd]

theorem complete_driver_missing {fuel : Nat} {s : SysState} {driver_id order_id : String}
    {o : Order}
    (ho : getOrder s.orders order_id = some o) (hs : o.status = .PICKED_UP)
    (hd : o.driver_id = some driver_id) (hgd : getDriver s.drivers driver_id = none) :
    complete_order fuel s driver_id order_id =
      some ({ s with orders := (saveOrder s.orders ({ o with status := .DELIVERED })) },
            some (.driverNotFound driver_id)) := by
  unfold complete_order update_status
  rw [ho]
  simp [hs, hd, hgd]

theorem complete_with_driver {fuel : Nat} {s : SysState} {driver_id order_id : String}
    {o : Order} {dp : Driver}
    (ho : getOrder s.orders order_id = some o) (hs : o.status = .PICKED_UP)
    (hd : o.driver_id = some driver_id)
    (hgd : getDriver s.drivers driver_id = some dp) :
    complete_order fuel s driver_id order_id =
      (on_driver_available driver_id fuel
        { s with orders := (saveOrder s.orders ({ o with status := .DELIVERED })),
                 drivers := (saveDriver (saveDriver s.drivers ({ dp with status := .AVAILABLE })) ({ dp with status := .AVAILABLE, order_count := dp.order_count + 1 })),
                 notifications := (s.notifications ++ [.notify ("Order " ++ order_id ++ " delivered successfully by Driver " ++ driver_id)]) }).map
        (fun s5 => (s5, none)) := by
  have hkd : dp.id = driver_id := repoGet_key (show repoGet (fun d => d.id) s.drivers driver_id = some dp from hgd)
  have h2 : getDriver (saveDriver s.drivers ({ dp with status := .AVAILABLE })) driver_id
      = some ({ dp with status := .AVAILABLE }) := by
    show repoGet (fun d => d.id) (repoSave (fun d => d.id) s.drivers ({ dp with status := .AVAILABLE })) driver_id = _
    rw [show driver_id = ({ dp with status := .AVAILABLE } : Driver).id from hkd.symm]
    exact repoGet_save_self (fun d => d.id) s.drivers _
  unfold complete_order update_status
  rw [ho]
  simp only [hs, hd, hgd, h2, bne_self_eq_false, Bool.false_eq_true, if_false]
  cases hdr : on_driver_available driver_id fuel _ <;> simp [hdr]

theorem pickup_missing {s : SysState} {driver_id order_id : String}
    (ho : getOrder s.orders order_id = none) :
    pickup_order s driver_id order_id = (s, some (.orderNotFound order_id)) := by
  unfold pickup_order
  rw [ho]

theorem pickup_not_assigned_state {s : SysState} {driver_id order_id : String} {o : Order}
    (ho : getOrder s.orders order_id = some o) (hs : o.status ≠ .ASSIGNED) :
    pickup_order s driver_id order_id =
      (s, some (.invalidState order_id o.status .ASSIGNED "picked up")) := by
  unfold pickup_order
  rw [ho]
  simp [hs]

theorem pickup_wrong_driver {s : SysState} {driver_id order_id : String} {o : Order}
    (ho : getOrder s.orders order_id = some o) (hs : o.status = .ASSIGNED)
    (hd : o.driver_id ≠ some driver_id) :
    pickup_order s driver_id order_id = (s, some (.notAssigned driver_id order_id)) := by
  unfold pickup_order
  rw [ho]
  simp [hs, hd]

theorem pickup_success {s : SysState} {driver_id order_id : String} {o : Order}
    (ho : getOrder s.orders order_id = some o) (hs : o.status = .ASSIGNED)
    (hd : o.driver_id = some driver_id) :
    pickup_order s driver_id order_id =
      ({ s with orders := (saveOrder s.orders ({ o with status := .PICKED_UP })),
                notifications := (s.notifications ++ [.sms ("+91-DRIVER-" ++ driver_id) ("Order " ++ order_id ++ " picked up. Deliver to customer."), .email (o.customer_id ++ "@email.com") ("Order " ++ order_id ++ " is on the way!")]) }, none) := by
  unfold pickup_order
  rw [ho]
  simp [hs, hd]

theorem pay_missing {s : SysState} {order_id : String} {a : Rat} {m : PaymentMode}
    (ho : getOrder s.orders order_id = none) :
    process_order_payment s order_id a m = (s, some (.orderNotFound order_id)) := by
  unfold process_order_payment
  rw [ho]

theorem pay_success {s : SysState} {order_id : String} {o : Order} {a : Rat} {m : PaymentMode}
    (ho : getOrder s.orders order_id = some o) (hp : o.is_paid = false) :
    process_order_payment s order_id a m =
      ({ s with payments := (s.payments ++ [{ id := "PAY-" ++ toString s.payments.length, order_id := order_id, amount := a, mode := m, timestamp := s.now }]),
                orders := (saveOrder s.orders ({ o with payment_id := some ("PAY-" ++ toString s.payments.length), is_paid := true })),
                notifications := (s.notifications ++ [.notify ("Payment collected for Order " ++ order_id)]) }, none) := by
  unfold process_order_payment process_payment
  rw [ho]
  simp [hp]

theorem create_dup {s : SysState} {order_id customer_id : String} {item : ItemType} {o0 : Order}
    (ho : getOrder s.orders order_id = some o0) :
    create_order s order_id customer_id item = (s, some (.duplicateOrder order_id)) := by
  unfold create_order
  rw [ho]

theorem create_no_customer {s : SysState} {order_id customer_id : String} {item : ItemType}
    (ho : getOrder s.orders order_id = none) (hc : customer_id ∉ s.customers) :
    create_order s order_id customer_id item = (s, some (.customerNotFound customer_id)) := by
  unfold create_order
  rw [ho]
  simp [hc]

theorem create_spec {s : SysState} {order_id customer_id : String} {item : ItemType}
    (ho : getOrder s.orders order_id = none) (hc : customer_id ∈ s.customers) :
    create_order s order_id customer_id item =
      ((attempt_assignment
        { s with orders := (saveOrder s.orders ({ id := order_id, customer_id := customer_id, item := item, created_at := s.now })),
                 notifications := (s.notifications ++ [.email (customer_id ++ "@email.com") ("Order " ++ order_id ++ " placed successfully.")]) }
        order_id).2, none) := by
  unfold create_order
  rw [ho]
  simp [hc]


/-! ### Per-operation invariant preservation -/

theorem inv_create {s : SysState} (hI : Inv s) (order_id customer_id : String)
    (item : ItemType) : Inv (create_order s order_id customer_id item).1 := by
  obtain ⟨hw, hol, hdl, hq⟩ := hI
  cases ho : getOrder s.orders order_id with
  | some o0 =>
    rw [create_dup ho]
    exact ⟨hw, hol, hdl, hq⟩
  | none =>
    have ho2 : repoGet (fun o => o.id) s.orders order_id = none := ho
    by_cases hcust : customer_id ∈ s.customers
    · rw [create_spec ho hcust]
      apply inv_attempt_x
      · exact ⟨nodup_key_repoSave _ hw.1, hw.2⟩
      · exact ordersLink_save hol (by simp)
      · intro d hd
        have h2 := hdl d hd
        rw [nonTerminalCount_as_countP] at h2
        show ((repoSave (fun o => o.id) s.orders
          ({ id := order_id, customer_id := customer_id, item := item, created_at := s.now })).countP
            (nonTerminalFor d.id)) = _
        rw [countP_repoSave_none (nonTerminalFor d.id) ho2,
          show nonTerminalFor d.id ({ id := order_id, customer_id := customer_id, item := item, created_at := s.now } : Order) = false from by simp [nonTerminalFor]]
        simpa using h2
      · refine ⟨hq.1, ?_, ?_⟩
        · intro q hq2
          show (repoGet (fun o => o.id) (repoSave (fun o => o.id) s.orders _) q).isSome
          exact isSome_repoGet_save (hq.2.1 q hq2)
        · intro x hx hxs
          have hx2 : x ∈ saveOrder s.orders
              ({ id := order_id, customer_id := customer_id, item := item, created_at := s.now }) := hx
          rw [saveOrder_as_repoSave, repoSave_of_none ho2] at hx2
          rcases List.mem_append.mp hx2 with h1 | h1
          · exact Or.inl (hq.2.2 x h1 hxs)
          · exact Or.inr (by rw [List.mem_singleton.mp h1])
    · rw [create_no_customer ho hcust]
      exact ⟨hw, hol, hdl, hq⟩

theorem inv_pickup {s : SysState} (hI : Inv s) (driver_id order_id : String) :
    Inv (pickup_order s driver_id order_id).1 := by
  obtain ⟨hw, hol, hdl, hq⟩ := hI
  cases ho : getOrder s.orders order_id with
  | none =>
    rw [pickup_missing ho]
    exact ⟨hw, hol, hdl, hq⟩
  | some o =>
    by_cases hs : o.status = .ASSIGNED
    · by_cases hd : o.driver_id = some driver_id
      · rw [pickup_success ho hs hd]
        refine ⟨⟨?_, hw.2⟩, ?_, ?_, ?_⟩
        · exact nodup_key_repoSave ({ o with status := .PICKED_UP }) hw.1
        · exact ordersLink_save hol (by simp [hd])
        · exact driversLink_save_order hdl ho rfl (fun x => by simp [nonTerminalFor, hs, hd])
        · exact queueWF_save hq ho hw.1 rfl (fun h => absurd h (by simp))
      · rw [pickup_wrong_driver ho hs hd]
        exact ⟨hw, hol, hdl, hq⟩
    · rw [pickup_not_assigned_state ho hs]
      exact ⟨hw, hol, hdl, hq⟩

theorem inv_pay {s : SysState} (hI : Inv s) (order_id : String) (a : Rat) (m : PaymentMode) :
    Inv (process_order_payment s order_id a m).1 := by
  obtain ⟨hw, hol, hdl, hq⟩ := hI
  cases ho : getOrder s.orders order_id with
  | none =>
    rw [pay_missing ho]
    exact ⟨hw, hol, hdl, hq⟩
  | some o =>
    have ho2 : repoGet (fun o => o.id) s.orders order_id = some o := ho
    by_cases hp : o.is_paid = true
    · rw [pay_already_paid ho hp]
      exact ⟨hw, hol, hdl, hq⟩
    · rw [pay_success ho (by simpa using hp)]
      refine ⟨⟨?_, hw.2⟩, ?_, ?_, ?_⟩
      · exact nodup_key_repoSave
          ({ o with payment_id := some ("PAY-" ++ toString s.payments.length), is_paid := true }) hw.1
      · exact ordersLink_save hol (hol o (repoGet_mem ho2))
      · exact driversLink_save_order hdl ho rfl (fun x => rfl)
      · exact queueWF_save hq ho hw.1 rfl (fun h => hq.2.2 o (repoGet_mem ho2) h)

theorem inv_cancel :
    ∀ (fuel : Nat) (s : SysState) (order_id : String) (s' : SysState) (e : Option Err),
      Inv s → cancel_order fuel s order_id = some (s', e) → Inv s' := by
  intro fuel s order_id s' e hI hc
  obtain ⟨hw, hol, hdl, hq⟩ := hI
  cases ho : getOrder s.orders order_id with
  | none =>
    rw [cancel_missing ho] at hc
    cases hc
    exact ⟨hw, hol, hdl, hq⟩
  | some o =>
    have ho2 : repoGet (fun o => o.id) s.orders order_id = some o := ho
    cases hcb : o.can_be_cancelled with
    | false =>
      rw [cancel_not_cancellable ho hcb] at hc
      cases hc
      exact ⟨hw, hol, hdl, hq⟩
    | true =>
      have hstat : o.status = .PENDING ∨ o.status = .ASSIGNED := (can_be_cancelled_iff o).mp hcb
      cases hdid : o.driver_id with
      | none =>
        rw [cancel_no_driver ho hcb hdid] at hc
        cases hc
        refine ⟨⟨?_, hw.2⟩, ?_, ?_, ?_⟩
        · exact nodup_key_repoSave ({ o with status := .CANCELLED, driver_id := none }) hw.1
        · exact ordersLink_save hol (by simp)
        · exact driversLink_save_order hdl ho rfl (fun x => by simp [nonTerminalFor, hdid])
        · exact queueWF_save hq ho hw.1 rfl (fun h => absurd h (by simp))
      | some prev =>
        have hstat3 : o.status = .ASSIGNED ∨ o.status = .PICKED_UP ∨ o.status = .DELIVERED :=
          (hol o (repoGet_mem ho2)).mp (by rw [hdid]; simp)
        have hass : o.status = .ASSIGNED := by
          rcases hstat with h | h
          · exfalso
            rcases hstat3 with h3 | h3 | h3 <;> rw [h] at h3 <;> cases h3
          · exact h
        cases hdrv : getDriver s.drivers prev with
        | none =>
          rw [cancel_driver_missing ho hcb hdid hdrv] at hc
          cases hc
          refine ⟨⟨?_, hw.2⟩, ?_, ?_, ?_⟩
          · exact nodup_key_repoSave ({ o with status := .CANCELLED, driver_id := none }) hw.1
          · exact ordersLink_save hol (by simp)
          · exact driversLink_release_missing hdl ho rfl
              (fun x => by simp [nonTerminalFor, hdid, hass])
              (fun x => by simp [nonTerminalFor]) hdrv
          · exact queueWF_save hq ho hw.1 rfl (fun h => absurd h (by simp))
        | some dprev =>
          have hdrv2 : repoGet (fun d => d.id) s.drivers prev = some dprev := hdrv
          have hkdp : dprev.id = prev := repoGet_key hdrv2
          rw [cancel_with_driver fuel ho hcb hdid hdrv] at hc
          rcases Option.map_eq_some'.mp hc with ⟨s5, hdr, heq⟩
          injection heq with h1 h2
          subst h1
          subst h2
          apply inv_drain fuel _ _ prev _ hdr
          refine ⟨⟨?_, ?_⟩, ?_, ?_, ?_⟩
          · exact nodup_key_repoSave ({ o with status := .CANCELLED, driver_id := none }) hw.1
          · show ((repoSave (fun d => d.id) s.drivers ({ dprev with status := .AVAILABLE })).map (fun d => d.id)).Nodup
            rw [map_key_repoSave_of_some ({ dprev with status := .AVAILABLE }) hdrv2 hkdp]
            exact hw.2
          · exact ordersLink_save hol (by simp)
          · exact driversLink_release_found hdl hw.2 ho rfl
              (fun x => by simp [nonTerminalFor, hdid, hass])
              (fun x => by simp [nonTerminalFor]) hdrv
          · exact queueWF_save hq ho hw.1 rfl (fun h => absurd h (by simp))

theorem inv_complete :
    ∀ (fuel : Nat) (s : SysState) (driver_id order_id : String) (s' : SysState) (e : Option Err),
      Inv s → complete_order fuel s driver_id order_id = some (s', e) → Inv s' := by
  intro fuel s driver_id order_id s' e hI hc
  obtain ⟨hw, hol, hdl, hq⟩ := hI
  cases ho : getOrder s.orders order_id with
  | none =>
    rw [complete_missing ho] at hc
    cases hc
    exact ⟨hw, hol, hdl, hq⟩
  | some o =>
    have ho2 : repoGet (fun o => o.id) s.orders order_id = some o := ho
    by_cases hs : o.status = .PICKED_UP
    · by_cases hd : o.driver_id = some driver_id
      · cases hgd : getDriver s.drivers driver_id with
        | none =>
          rw [complete_driver_missing ho hs hd hgd] at hc
          cases hc
          refine ⟨⟨?_, hw.2⟩, ?_, ?_, ?_⟩
          · exact nodup_key_repoSave ({ o with status := .DELIVERED }) hw.1
          · exact ordersLink_save hol (by simp [hd])
          · exact driversLink_release_missing hdl ho rfl
              (fun x => by simp [nonTerminalFor, hd, hs])
              (fun x => by simp [nonTerminalFor]) hgd
          · exact queueWF_save hq ho hw.1 rfl (fun h => absurd h (by simp))
        | some dp =>
          have hgd2 : repoGet (fun d => d.id) s.drivers driver_id = some dp := hgd
          have hkd : dp.id = driver_id := repoGet_key hgd2
          rw [complete_with_driver ho hs hd hgd] at hc
          rcases Option.map_eq_some'.mp hc with ⟨s5, hdr, heq⟩
          injection heq with h1 h2
          subst h1
          subst h2
          apply inv_drain fuel _ _ driver_id _ hdr
          have hfree2 : repoGet (fun d => d.id)
              (repoSave (fun d => d.id) s.drivers ({ dp with status := .AVAILABLE })) driver_id
              = some ({ dp with status := .AVAILABLE }) := by
            rw [show driver_id = ({ dp with status := .AVAILABLE } : Driver).id from hkd.symm]
            exact repoGet_save_self (fun d => d.id) s.drivers _
          have hnd2 : ((repoSave (fun d => d.id) s.drivers
              ({ dp with status := .AVAILABLE })).map (fun d => d.id)).Nodup := by
            rw [map_key_repoSave_of_some ({ dp with status := .AVAILABLE }) hgd2 hkd]
            exact hw.2
          refine ⟨⟨?_, ?_⟩, ?_, ?_, ?_⟩
          · exact nodup_key_repoSave ({ o with status := .DELIVERED }) hw.1
          · show ((repoSave (fun d => d.id)
              (repoSave (fun d => d.id) s.drivers ({ dp with status := .AVAILABLE }))
              ({ dp with status := .AVAILABLE, order_count := dp.order_count + 1 })).map
                (fun d => d.id)).Nodup
            rw [map_key_repoSave_of_some
              ({ dp with status := .AVAILABLE, order_count := dp.order_count + 1 })
              hfree2 hkd]
            exact hnd2
          · exact ordersLink_save hol (by simp [hd])
          · have hrel : DriversLinkInv (saveOrder s.orders ({ o with status := .DELIVERED }))
                (saveDriver s.drivers ({ dp with status := .AVAILABLE })) :=
              driversLink_release_found hdl hw.2 ho rfl
                (fun x => by simp [nonTerminalFor, hd, hs])
                (fun x => by simp [nonTerminalFor]) hgd
            exact driversLink_update_same_status hrel hnd2 hfree2 rfl rfl
          · exact queueWF_save hq ho hw.1 rfl (fun h => absurd h (by simp))
      · rw [complete_not_assigned ho hs hd] at hc
        cases hc
        exact ⟨hw, hol, hdl, hq⟩
    · rw [complete_not_picked ho hs] at hc
      cases hc
      exact ⟨hw, hol, hdl, hq⟩

theorem inv_cleanup_pass :
    ∀ (ids : List String) (fuel : Nat) (timeout : Int) (s : SysState) (s' : SysState)
      (e : Option Err),
      Inv s → cleanup_pass fuel timeout ids s = some (s', e) → Inv s' := by
  intro ids
  induction ids with
  | nil =>
    intro fuel timeout s s' e hI h
    cases h
    exact hI
  | cons q rest ih =>
    intro fuel timeout s s' e hI h
    unfold cleanup_pass at h
    split at h
    · exact ih fuel timeout s s' e hI h
    · split at h
      · split at h
        · cases h
        · rename_i s1 oid st hcanc
          exact ih fuel timeout s1 s' e (inv_cancel fuel s q s1 _ hI hcanc) h
        · rename_i s1 e1 hne hcanc
          cases h
          exact inv_cancel fuel s q s' _ hI hcanc
        · rename_i s1 hcanc
          exact ih fuel timeout s1 s' e (inv_cancel fuel s q s1 _ hI hcanc) h
      · exact ih fuel timeout s s' e hI h

theorem inv_cleanup :
    ∀ (fuel : Nat) (s : SysState) (timeout : Int) (s' : SysState) (e : Option Err),
      Inv s → cleanup_expired_orders fuel s timeout = some (s', e) → Inv s' := by
  intro fuel s timeout s' e hI h
  unfold cleanup_expired_orders at h
  exact inv_cleanup_pass _ fuel timeout s s' e hI h


/-! ### C2, C3, C8: invariants after every core operation -/

theorem busy_iff {orders : List Order} {drivers : List Driver}
    (h : DriversLinkInv orders drivers) :
    ∀ d ∈ drivers, (d.status = .BUSY ↔ nonTerminalCount orders d.id = 1) := by
  intro d hd
  have h2 := h d hd
  cases hs : d.status with
  | BUSY =>
    rw [hs, if_pos rfl] at h2
    exact ⟨fun _ => h2, fun _ => rfl⟩
  | AVAILABLE =>
    rw [hs, if_neg (by simp)] at h2
    constructor
    · intro hb
      exact absurd hb (by decide)
    · intro h1
      rw [h2] at h1
      exact absurd h1 (by decide)

/-- C2: in any state satisfying the reachable-state invariant, after each
core operation (create, attempt assignment, pickup, complete, cancel,
pay, expiration sweep) every stored order has a non-null `driver_id` iff
its status is ASSIGNED, PICKED_UP or DELIVERED. -/
theorem claim_C2 (s : SysState) (hI : Inv s) :
    (∀ order_id customer_id item,
      OrdersLinkInv (create_order s order_id customer_id item).1.orders) ∧
    (∀ order_id, OrdersLinkInv (attempt_assignment s order_id).2.orders) ∧
    (∀ driver_id order_id, OrdersLinkInv (pickup_order s driver_id order_id).1.orders) ∧
    (∀ fuel driver_id order_id s' e,
      complete_order fuel s driver_id order_id = some (s', e) → OrdersLinkInv s'.orders) ∧
    (∀ fuel order_id s' e,
      cancel_order fuel s order_id = some (s', e) → OrdersLinkInv s'.orders) ∧
    (∀ order_id a m, OrdersLinkInv (process_order_payment s order_id a m).1.orders) ∧
    (∀ fuel timeout s' e,
      cleanup_expired_orders fuel s timeout = some (s', e) → OrdersLinkInv s'.orders) :=
  ⟨fun oid cid it => (inv_create hI oid cid it).2.1,
   fun oid => (inv_attempt hI oid).2.1,
   fun did oid => (inv_pickup hI did oid).2.1,
   fun fuel did oid s' e h => (inv_complete fuel s did oid s' e hI h).2.1,
   fun fuel oid s' e h => (inv_cancel fuel s oid s' e hI h).2.1,
   fun oid a m => (inv_pay hI oid a m).2.1,
   fun fuel t s' e h => (inv_cleanup fuel s t s' e hI h).2.1⟩

/-- Witness for C2: the concrete assigned state satisfies the invariant
and the pickup conjunct applies to it. -/
theorem claim_C2_witness :
    Inv stateAssigned ∧ OrdersLinkInv (pickup_order stateAssigned "D1" "O1").1.orders :=
  ⟨by decide, (claim_C2 stateAssigned (by decide)).2.2.1 "D1" "O1"⟩

/-- C3: in any state satisfying the reachable-state invariant, after each
core operation a driver is BUSY iff exactly one stored order references
him with a non-terminal status (ASSIGNED or PICKED_UP). -/
theorem claim_C3 (s : SysState) (hI : Inv s) :
    (∀ order_id customer_id item, ∀ d ∈ (create_order s order_id customer_id item).1.drivers,
      (d.status = .BUSY ↔
        nonTerminalCount (create_order s order_id customer_id item).1.orders d.id = 1)) ∧
    (∀ order_id, ∀ d ∈ (attempt_assignment s order_id).2.drivers,
      (d.status = .BUSY ↔
        nonTerminalCount (attempt_assignment s order_id).2.orders d.id = 1)) ∧
    (∀ driver_id order_id, ∀ d ∈ (pickup_order s driver_id order_id).1.drivers,
      (d.status = .BUSY ↔
        nonTerminalCount (pickup_order s driver_id order_id).1.orders d.id = 1)) ∧
    (∀ fuel driver_id order_id s' e,
      complete_order fuel s driver_id order_id = some (s', e) →
      ∀ d ∈ s'.drivers, (d.status = .BUSY ↔ nonTerminalCount s'.orders d.id = 1)) ∧
    (∀ fuel order_id s' e,
      cancel_order fuel s order_id = some (s', e) →
      ∀ d ∈ s'.drivers, (d.status = .BUSY ↔ nonTerminalCount s'.orders d.id = 1)) ∧
    (∀ order_id a m, ∀ d ∈ (process_order_payment s order_id a m).1.drivers,
      (d.status = .BUSY ↔
        nonTerminalCount (process_order_payment s order_id a m).1.orders d.id = 1)) ∧
    (∀ fuel timeout s' e,
      cleanup_expired_orders fuel s timeout = some (s', e) →
      ∀ d ∈ s'.drivers, (d.status = .BUSY ↔ nonTerminalCount s'.orders d.id = 1)) :=
  ⟨fun oid cid it => busy_iff (inv_create hI oid cid it).2.2.1,
   fun oid => busy_iff (inv_attempt hI oid).2.2.1,
   fun did oid => busy_iff (inv_pickup hI did oid).2.2.1,
   fun fuel did oid s' e h => busy_iff (inv_complete fuel s did oid s' e hI h).2.2.1,
   fun fuel oid s' e h => busy_iff (inv_cancel fuel s oid s' e hI h).2.2.1,
   fun oid a m => busy_iff (inv_pay hI oid a m).2.2.1,
   fun fuel t s' e h => busy_iff (inv_cleanup fuel s t s' e hI h).2.2.1⟩

/-- Witness for C3 at the concrete assigned state. -/
theorem claim_C3_witness :
    Inv stateAssigned ∧ (∀ d ∈ (pickup_order stateAssigned "D1" "O1").1.drivers,
      (d.status = .BUSY ↔
        nonTerminalCount (pickup_order stateAssigned "D1" "O1").1.orders d.id = 1)) :=
  ⟨by decide, (claim_C3 stateAssigned (by decide)).2.2.1 "D1" "O1"⟩

/-- C8 (amended): after every core operation the pending queue still has
no duplicate ids and every PENDING order's id is queued; the claim's
converse direction ("queued only if PENDING", with cancel eagerly
removing the id) is refuted by the counterexample — a cancelled queued
order's id stays in the queue as a stale entry until a drain drops it. -/
theorem claim_C8 (s : SysState) (hI : Inv s) :
    (∀ order_id customer_id item,
      (create_order s order_id customer_id item).1.pending.Nodup ∧
      ∀ o ∈ (create_order s order_id customer_id item).1.orders, o.status = .PENDING →
        o.id ∈ (create_order s order_id customer_id item).1.pending) ∧
    (∀ order_id,
      (attempt_assignment s order_id).2.pending.Nodup ∧
      ∀ o ∈ (attempt_assignment s order_id).2.orders, o.status = .PENDING →
        o.id ∈ (attempt_assignment s order_id).2.pending) ∧
    (∀ driver_id order_id,
      (pickup_order s driver_id order_id).1.pending.Nodup ∧
      ∀ o ∈ (pickup_order s driver_id order_id).1.orders, o.status = .PENDING →
        o.id ∈ (pickup_order s driver_id order_id).1.pending) ∧
    (∀ fuel driver_id order_id s' e,
      complete_order fuel s driver_id order_id = some (s', e) →
      s'.pending.Nodup ∧ ∀ o ∈ s'.orders, o.status = .PENDING → o.id ∈ s'.pending) ∧
    (∀ fuel order_id s' e,
      cancel_order fuel s order_id = some (s', e) →
      s'.pending.Nodup ∧ ∀ o ∈ s'.orders, o.status = .PENDING → o.id ∈ s'.pending) ∧
    (∀ order_id a m,
      (process_order_payment s order_id a m).1.pending.Nodup ∧
      ∀ o ∈ (process_order_payment s order_id a m).1.orders, o.status = .PENDING →
        o.id ∈ (process_order_payment s order_id a m).1.pending) ∧
    (∀ fuel timeout s' e,
      cleanup_expired_orders fuel s timeout = some (s', e) →
      s'.pending.Nodup ∧ ∀ o ∈ s'.orders, o.status = .PENDING → o.id ∈ s'.pending) :=
  ⟨fun oid cid it => ⟨(inv_create hI oid cid it).2.2.2.1, (inv_create hI oid cid it).2.2.2.2.2⟩,
   fun oid => ⟨(inv_attempt hI oid).2.2.2.1, (inv_attempt hI oid).2.2.2.2.2⟩,
   fun did oid => ⟨(inv_pickup hI did oid).2.2.2.1, (inv_pickup hI did oid).2.2.2.2.2⟩,
   fun fuel did oid s' e h => ⟨(inv_complete fuel s did oid s' e hI h).2.2.2.1,
     (inv_complete fuel s did oid s' e hI h).2.2.2.2.2⟩,
   fun fuel oid s' e h => ⟨(inv_cancel fuel s oid s' e hI h).2.2.2.1,
     (inv_cancel fuel s oid s' e hI h).2.2.2.2.2⟩,
   fun oid a m => ⟨(inv_pay hI oid a m).2.2.2.1, (inv_pay hI oid a m).2.2.2.2.2⟩,
   fun fuel t s' e h => ⟨(inv_cleanup fuel s t s' e hI h).2.2.2.1,
     (inv_cleanup fuel s t s' e hI h).2.2.2.2.2⟩⟩

/-- Witness for C8 at the concrete queued state (an attempt that assigns
the queued order). -/
theorem claim_C8_witness :
    Inv stateAvail ∧
      ((attempt_assignment stateAvail "O1").2.pending.Nodup ∧
      ∀ o ∈ (attempt_assignment stateAvail "O1").2.orders, o.status = .PENDING →
        o.id ∈ (attempt_assignment stateAvail "O1").2.pending) :=
  ⟨by decide, (claim_C8 stateAvail (by decide)).2.1 "O1"⟩


/-! ### C9: FIFO fairness -/

/-- C9: FIFO fairness.  (a) An order created while no driver is AVAILABLE
is appended at the tail of the pending queue (so N creations queue in
creation order).  (b) When a driver is available and the queue head is
still PENDING, the drain triggered by `on_driver_available` assigns
exactly the head — the earliest-created queued order — and leaves the
rest of the queue in order. -/
theorem claim_C9 :
    (∀ (s : SysState) (order_id customer_id : String) (item : ItemType),
      find_driver s.drivers = none → getOrder s.orders order_id = none →
      customer_id ∈ s.customers → order_id ∉ s.pending →
      ∃ s1, create_order s order_id customer_id item = (s1, none) ∧
        s1.pending = s.pending ++ [order_id] ∧
        getOrder s1.orders order_id =
          some { id := order_id, customer_id := customer_id, item := item,
                 created_at := s.now }) ∧
    (∀ (s : SysState) (driver_id head : String) (rest : List String) (d : Driver),
      s.pending = head :: rest → is_pending_order s head = true →
      find_driver s.drivers = some d →
      ∃ s', on_driver_available driver_id (s.pending.length + 1) s = some s' ∧
        (∃ o, getOrder s'.orders head = some o ∧ o.status = .ASSIGNED ∧
          o.driver_id = some d.id) ∧
        s'.pending = rest) := by
  constructor
  · intro s order_id customer_id item hfd ho hcust hnm
    rw [create_spec ho hcust]
    have hsv : getOrder (saveOrder s.orders ({ id := order_id, customer_id := customer_id, item := item, created_at := s.now })) order_id
        = some ({ id := order_id, customer_id := customer_id, item := item, created_at := s.now }) := by
      show repoGet (fun o => o.id)
        (repoSave (fun o => o.id) s.orders
          ({ id := order_id, customer_id := customer_id, item := item, created_at := s.now }))
        order_id = _
      exact repoGet_save_self (fun o => o.id) s.orders _
    have hstep := attempt_of_no_driver_not_mem
      (s := { s with orders := (saveOrder s.orders ({ id := order_id, customer_id := customer_id, item := item, created_at := s.now })),
                     notifications := (s.notifications ++ [.email (customer_id ++ "@email.com") ("Order " ++ order_id ++ " placed successfully.")]) })
      hsv rfl hfd hnm
    rw [hstep]
    exact ⟨_, rfl, rfl, hsv⟩
  · intro s driver_id head rest d hp hpend hfd
    obtain ⟨ords, drvs, pnd, pays, custs, nots, nw⟩ := s
    simp only at hp hpend hfd ⊢
    subst hp
    unfold is_pending_order at hpend
    cases ho : getOrder ords head with
    | none =>
      rw [show getOrder (SysState.mk ords drvs (head :: rest) pays custs nots nw).orders head
        = none from ho] at hpend
      cases hpend
    | some o =>
      rw [show getOrder (SysState.mk ords drvs (head :: rest) pays custs nots nw).orders head
        = some o from ho] at hpend
      have hops : o.status = .PENDING := by simpa using hpend
      have hunf : on_driver_available driver_id ((head :: rest).length + 1)
            ⟨ords, drvs, head :: rest, pays, custs, nots, nw⟩
          = (match attempt_assignment ⟨ords, drvs, rest, pays, custs, nots, nw⟩ head with
             | (true, s2) => some s2
             | (false, s2) => on_driver_available driver_id (rest.length + 1) s2) := rfl
      rw [hunf, attempt_of_driver
        (show getOrder (SysState.mk ords drvs rest pays custs nots nw).orders head
          = some o from ho) hops
        (show find_driver (SysState.mk ords drvs rest pays custs nots nw).drivers
          = some d from hfd)]
      refine ⟨_, rfl, ⟨{ o with driver_id := some d.id, status := .ASSIGNED }, ?_, rfl, rfl⟩, rfl⟩
      show getOrder (saveOrder ords ({ o with driver_id := some d.id, status := .ASSIGNED })) head = _
      exact getOrder_save_update _ ho rfl

/-- Witness for C9: from the concrete queued state with one AVAILABLE
driver, the drain assigns the queue head O1 to D1 and empties the queue. -/
theorem claim_C9_witness :
    (stateAvail.pending = "O1" :: [] ∧ is_pending_order stateAvail "O1" = true ∧
      find_driver stateAvail.drivers = some dA1) ∧
    (∃ s', on_driver_available "D1" (stateAvail.pending.length + 1) stateAvail = some s' ∧
      (∃ o, getOrder s'.orders "O1" = some o ∧ o.status = .ASSIGNED ∧
        o.driver_id = some dA1.id) ∧
      s'.pending = []) :=
  ⟨⟨by decide, by decide, by decide⟩,
    claim_C9.2 stateAvail "D1" "O1" [] dA1 (by decide) (by decide) (by decide)⟩

end Delivery
